import Mathlib

/-!
# Power HAL of the NVIDIA Shield tablet: hint debouncing, dispatch and profiles

A shallow embedding of `drivers/powerhal/nvpowerhal.cpp` (and of the board
glue in `drivers/power/power.cpp`).  The process-wide `powerhal_info` block is
an explicit record that every operation takes and returns.  What the code asks
of the outside world (requests to the TimeoutPoker, writes to kernel control
files, closing a descriptor) is returned as an ordered list of events; what it
reads from the outside world (the monotonic clock, control files, persisted
properties, the descriptor a request returns) is passed in.

Machine integers: `uint64_t` values are natural numbers below `2 ^ 64` and the
one unsigned subtraction of the code is taken modulo `2 ^ 64`; `int` values are
integers; the one computation in `long`, the clock reading of `check_hint`, is
taken modulo `2 ^ LONG_BIT` for the width `LONG_BIT` of `long`.
-/

namespace PowerHal

/-! ## Constants of the absent headers -/

/-- Constants declared in `hardware/power.h` and `powerhal.h`, which are not
among the sources, taken as parameters: the codes of the hint types that
`common_power_hint` has a `case` for, the length `MAX_POWER_HINT_COUNT` of the
two per-hint arrays, the two PM QoS value macros and the length `MAX_CHARS` of
a device-name buffer.  The labels of one `switch` are pairwise different,
which the last field records. -/
structure powerhal_h where
  POWER_HINT_VSYNC : Nat
  POWER_HINT_INTERACTION : Nat
  POWER_HINT_LAUNCH_BOOST : Nat
  POWER_HINT_CPU_BOOST : Nat
  POWER_HINT_AUDIO : Nat
  POWER_HINT_LOW_POWER : Nat
  MAX_POWER_HINT_COUNT : Nat
  PM_QOS_BOOST_PRIORITY : Int
  PM_QOS_DEFAULT_VALUE : Int
  MAX_CHARS : Nat
  case_labels_distinct :
    [POWER_HINT_VSYNC, POWER_HINT_INTERACTION, POWER_HINT_LAUNCH_BOOST,
     POWER_HINT_CPU_BOOST, POWER_HINT_AUDIO, POWER_HINT_LOW_POWER].Nodup

/-- One assignment of the header constants, used to evaluate the model on
concrete inputs: the hint codes of Android's `hardware/power.h` with the
CyanogenMod additions, arrays just long enough for the largest of them, and
the kernel's PM QoS default value. -/
def android_h : powerhal_h where
  POWER_HINT_VSYNC := 1
  POWER_HINT_INTERACTION := 2
  POWER_HINT_LAUNCH_BOOST := 17
  POWER_HINT_CPU_BOOST := 16
  POWER_HINT_AUDIO := 32
  POWER_HINT_LOW_POWER := 5
  MAX_POWER_HINT_COUNT := 33
  PM_QOS_BOOST_PRIORITY := 35
  PM_QOS_DEFAULT_VALUE := -1
  MAX_CHARS := 32
  case_labels_distinct := by decide

/-- The PM QoS constraint macros passed to the TimeoutPoker (declared in an
absent header; kept symbolic). -/
inductive pmqos_constraint where
  | PMQOS_CONSTRAINT_CPU_FREQ
  | PMQOS_CONSTRAINT_ONLINE_CPUS
  | PMQOS_CONSTRAINT_GPU_FREQ
  | PMQOS_MAX_CPU_FREQ
  | PMQOS_MAX_ONLINE_CPUS
  deriving DecidableEq, Repr

open pmqos_constraint

/-- Kernel control files.  The two families built with `snprintf` from a
device index keep the index; every other file is its literal path. -/
inductive sysfs_path where
  | file (path : String)
  | input_name (i : Int)
  | input_enabled (dev_id : Int)
  deriving DecidableEq, Repr

/-- The `ms2ns` conversion of Android's `utils/Timers.h`. -/
def ms2ns (ms : Nat) : Nat := ms * 1000000

/-- The `s2ns` conversion of Android's `utils/Timers.h`. -/
def s2ns (s : Nat) : Nat := s * 1000000000

/-- What the HAL asks of the outside world, in program order.  The arguments of
the TimeoutPoker calls are kept in the order in which the code passes them:
`requestPmQosTimed` and `requestPmQos` take (constraint, priority, third
argument, fourth argument), the file variant takes (file name, value). -/
inductive Event where
  | sysfs_write (path : sysfs_path) (data : String)
  | requestPmQosTimed (constraint : pmqos_constraint) (priority : Int)
      (arg3 : Int) (arg4 : Int) (timeout_ns : Nat)
  | requestPmQosTimedFile (filename : String) (val : Int) (timeout_ns : Nat)
  | requestPmQos (constraint : pmqos_constraint) (priority : Int)
      (arg3 : Int) (arg4 : Int)
  | close (fd : Int)
  deriving DecidableEq, Repr

/-- A request to the TimeoutPoker (the Coordinator), timed or indefinite. -/
def Event.isRequest : Event → Bool
  | .requestPmQosTimed _ _ _ _ _ => true
  | .requestPmQosTimedFile _ _ _ => true
  | .requestPmQos _ _ _ _ => true
  | _ => false

/-- A call that reaches the Coordinator: a request or the release of a handle. -/
def Event.isCoordinator : Event → Bool
  | .sysfs_write _ _ => false
  | _ => true

/-- An indefinite request, the only kind that returns a handle. -/
def Event.isIndefinite : Event → Bool
  | .requestPmQos _ _ _ _ => true
  | _ => false

/-- The release of a handle. -/
def Event.isRelease : Event → Bool
  | .close _ => true
  | _ => false

/-! ## The info block -/

/-- One entry of the board's `input_devs` table. -/
structure input_dev_map where
  dev_id : Int
  dev_name : List Char
  deriving DecidableEq, Repr

/-- The fields of `struct powerhal_info` that the code under study reads or
writes.  `input_devs = none` is the null pointer.  The two per-hint arrays are
functions of the index. -/
structure powerhal_info where
  input_devs : Option (List input_dev_map)
  input_cnt : Int
  available_frequencies : List Int
  num_available_frequencies : Int
  lp_max_frequency : Int
  interaction_boost_frequency : Int
  animation_boost_frequency : Int
  cpu0_max_frequency : Int
  hint_time : Nat → Nat
  hint_interval : Nat → Nat
  fds_vsync_min_cpu : Int
  ftrace_enable : Bool

/-- The info block after a call together with the events of the call. -/
structure Outcome where
  info : Option powerhal_info
  events : List Event

/-! ## Hint debouncing and dispatch -/

/-- The value of `struct timespec` that `clock_gettime(CLOCK_MONOTONIC, &ts)`
stores in `ts`: whole seconds and nanoseconds since the clock started. -/
structure timespec where
  tv_sec : Nat
  tv_nsec : Nat

/-- The result of an arithmetic operation in the type `long`, whose width in
bits is `LONG_BIT`: 32 in the 32-bit ARM ABI of the tablet, 64 in a 64-bit ABI.
A result outside the range of `long` is kept modulo `2 ^ LONG_BIT` in two's
complement, which is what the hardware does on the signed overflow that the C
language leaves undefined. -/
def wrap_long (LONG_BIT : Nat) (v : Int) : Int :=
  (v + 2 ^ (LONG_BIT - 1)) % 2 ^ LONG_BIT - 2 ^ (LONG_BIT - 1)

/-- Line 107 of `check_hint`: `time = ts.tv_sec * 1000000 + ts.tv_nsec / 1000`.
Both fields of `ts` are `long` and the constants are `int`, so the product, the
quotient and the sum are formed in `long`; the result is then converted to the
`uint64_t` variable `time`, that is, taken modulo `2 ^ 64`. -/
def check_hint_time (LONG_BIT : Nat) (ts : timespec) : Nat :=
  (wrap_long LONG_BIT
      (wrap_long LONG_BIT ((ts.tv_sec : Int) * 1000000) + (ts.tv_nsec : Int) / 1000) %
    2 ^ 64).toNat

/-- The source's `check_hint` apart from its line 107: `time` is the value of
the variable `time` that line 107 computes from the clock (`check_hint_time`),
a `uint64_t`.  `none` is the return value `-1`; `some t` is the return value
`0` with `*t = t`. -/
def check_hint (E : powerhal_h) (pInfo : powerhal_info) (hint : Nat) (time : Nat) :
    Option Nat :=
  if hint ≥ E.MAX_POWER_HINT_COUNT then none
  else if pInfo.hint_time hint ≠ 0 ∧ pInfo.hint_interval hint ≠ 0 ∧
      (time + 2 ^ 64 - pInfo.hint_time hint) % 2 ^ 64 < pInfo.hint_interval hint then none
  else some time

/-- The constant `VSyncActiveBoostFreq`. -/
def VSyncActiveBoostFreq : Int := 300000

/-- The source's `set_vsync_min_cpu_freq`.  `fd` is what `requestPmQos`
returns if it is called. -/
def set_vsync_min_cpu_freq (E : powerhal_h) (pInfo : powerhal_info) (enabled : Int)
    (fd : Int) : powerhal_info × List Event :=
  if enabled ≠ 0 ∧ pInfo.fds_vsync_min_cpu = -1 then
    ({ pInfo with fds_vsync_min_cpu := fd },
     [Event.requestPmQos PMQOS_CONSTRAINT_CPU_FREQ E.PM_QOS_BOOST_PRIORITY
        E.PM_QOS_DEFAULT_VALUE VSyncActiveBoostFreq])
  else if enabled = 0 ∧ pInfo.fds_vsync_min_cpu ≥ 0 then
    ({ pInfo with fds_vsync_min_cpu := -1 }, [Event.close pInfo.fds_vsync_min_cpu])
  else (pInfo, [])

/-- The `switch` of `common_power_hint`: the effect of an accepted hint before
its time is recorded.  `data = none` is the null payload. -/
def hint_switch (E : powerhal_h) (pInfo : powerhal_info) (hint : Nat) (data : Option Int)
    (fd : Int) : powerhal_info × List Event :=
  if hint = E.POWER_HINT_VSYNC then
    match data with
    | some enabled => set_vsync_min_cpu_freq E pInfo enabled fd
    | none => (pInfo, [])
  else if hint = E.POWER_HINT_INTERACTION then
    (pInfo,
     (if pInfo.ftrace_enable then
        [Event.sysfs_write (.file "/sys/kernel/debug/tracing/trace_marker")
          "Start POWER_HINT_INTERACTION\n"]
      else []) ++
     [Event.requestPmQosTimed PMQOS_CONSTRAINT_ONLINE_CPUS E.PM_QOS_BOOST_PRIORITY 4 2
        (ms2ns 500),
      Event.requestPmQosTimed PMQOS_CONSTRAINT_CPU_FREQ E.PM_QOS_BOOST_PRIORITY
        1530000 1044000 (ms2ns 500),
      Event.requestPmQosTimed PMQOS_CONSTRAINT_GPU_FREQ E.PM_QOS_BOOST_PRIORITY
        852000 72000 (ms2ns 500),
      Event.requestPmQosTimedFile "/dev/emc_freq_min" 396000 (s2ns 2)])
  else if hint = E.POWER_HINT_LAUNCH_BOOST then
    (pInfo,
     [Event.requestPmQosTimed PMQOS_CONSTRAINT_ONLINE_CPUS E.PM_QOS_BOOST_PRIORITY 4 4
        (s2ns 2)])
  else if hint = E.POWER_HINT_CPU_BOOST then
    (pInfo,
     [Event.requestPmQosTimed PMQOS_CONSTRAINT_CPU_FREQ E.PM_QOS_BOOST_PRIORITY
        E.PM_QOS_DEFAULT_VALUE 1224000 (ms2ns 1500),
      Event.requestPmQosTimed PMQOS_CONSTRAINT_ONLINE_CPUS E.PM_QOS_BOOST_PRIORITY 4 2
        (ms2ns 1500),
      Event.requestPmQosTimed PMQOS_CONSTRAINT_GPU_FREQ E.PM_QOS_BOOST_PRIORITY
        852000 180000 (ms2ns 1500),
      Event.requestPmQosTimedFile "/dev/emc_freq_min" 792000 (ms2ns 1500)])
  else if hint = E.POWER_HINT_AUDIO then
    (pInfo,
     [Event.requestPmQosTimed PMQOS_CONSTRAINT_CPU_FREQ E.PM_QOS_BOOST_PRIORITY
        E.PM_QOS_DEFAULT_VALUE 564000 (s2ns 1)])
  else if hint = E.POWER_HINT_LOW_POWER then
    (pInfo,
     [Event.requestPmQosTimed PMQOS_MAX_CPU_FREQ E.PM_QOS_BOOST_PRIORITY
        1044000 564000 (s2ns 1),
      Event.requestPmQosTimed PMQOS_MAX_ONLINE_CPUS E.PM_QOS_BOOST_PRIORITY 2 1
        (s2ns 1)])
  else (pInfo, [])

/-- The source's `common_power_hint`.  `pInfo = none` is the null pointer,
`time` the reading of the monotonic clock in `check_hint`, and `fd` the answer
of `requestPmQos` should the call make that request. -/
def common_power_hint (E : powerhal_h) (pInfo : Option powerhal_info) (hint : Nat)
    (data : Option Int) (time : Nat) (fd : Int) : Outcome :=
  match pInfo with
  | none => ⟨none, []⟩
  | some p =>
    match check_hint E p hint time with
    | none => ⟨some p, []⟩
    | some t =>
      let r := hint_switch E p hint data fd
      ⟨some { r.1 with hint_time := fun k => if k = hint then t else r.1.hint_time k }, r.2⟩

/-- The source's `check_hint` with its clock reading: `ts` is what
`clock_gettime` returns and `LONG_BIT` the width of `long`. -/
def check_hint_at (E : powerhal_h) (LONG_BIT : Nat) (pInfo : powerhal_info) (hint : Nat)
    (ts : timespec) : Option Nat :=
  check_hint E pInfo hint (check_hint_time LONG_BIT ts)

/-- The source's `common_power_hint` with the clock reading of its call of
`check_hint`. -/
def common_power_hint_at (E : powerhal_h) (LONG_BIT : Nat) (pInfo : Option powerhal_info)
    (hint : Nat) (data : Option Int) (ts : timespec) (fd : Int) : Outcome :=
  common_power_hint E pInfo hint data (check_hint_time LONG_BIT ts) fd

/-- One call of `common_power_hint` as the host makes it, with the readings of
the outside world that belong to it. -/
structure hint_call where
  hint : Nat
  data : Option Int
  time : Nat
  fd : Int

/-- A sequence of calls of `common_power_hint`, each on the block the previous
one left, with the events of all of them in order. -/
def run_hints (E : powerhal_h) : Option powerhal_info → List hint_call → Outcome
  | pInfo, [] => ⟨pInfo, []⟩
  | pInfo, c :: rest =>
    let r := common_power_hint E pInfo c.hint c.data c.time c.fd
    let r2 := run_hints E r.info rest
    ⟨r2.info, r.events ++ r2.events⟩

/-! ## What the HAL reads from the outside world -/

/-- The readings of the outside world that initialisation and the
interactive-state entry take.  `sysfs_read path size` is the C string that the
absent helper `sysfs_read(path, buf, size)` leaves in a zeroed buffer;
`input_count` is the first index `i` for which `/sys/class/input/input<i>/name`
does not exist; `access_W_OK` says whether `access(path, W_OK)` succeeds. -/
structure Env where
  sysfs_read : sysfs_path → Nat → List Char
  input_count : Nat
  access_W_OK : sysfs_path → Bool
  property_get : String → List Char
  get_property_bool : String → Bool → Bool

/-! ## The C library functions the code calls -/

/-- The C library's `isspace` in the C locale. -/
def isspace (c : Char) : Bool :=
  c = ' ' || c = '\t' || c = '\n' || c = '\r' || c.toNat = 11 || c.toNat = 12

/-- The digits that `atoi` consumes, accumulated in base ten. -/
def atoi_digits : List Char → Int → Int
  | [], acc => acc
  | c :: cs, acc =>
    if c.isDigit then atoi_digits cs (acc * 10 + ((c.toNat : Int) - 48)) else acc

/-- An `int` result of `strtol`: values outside the range of `int` are clamped. -/
def clamp_int (v : Int) : Int := max (-(2 ^ 31)) (min v (2 ^ 31 - 1))

/-- The C library's `atoi`: leading white space, an optional sign, then the
longest run of decimal digits; no digits give 0. -/
def atoi (s : List Char) : Int :=
  match s.dropWhile isspace with
  | '-' :: rest => clamp_int (-(atoi_digits rest 0))
  | '+' :: rest => clamp_int (atoi_digits rest 0)
  | rest => clamp_int (atoi_digits rest 0)

/-- One pass of `strtok` with the delimiter set `" "`, from the right: the
token that is open at the head of the string, and the tokens after it. -/
def split_sp : List Char → List Char × List (List Char)
  | [] => ([], [])
  | c :: cs =>
    let r := split_sp cs
    if c = ' ' then ([], if r.1 = [] then r.2 else r.1 :: r.2) else (c :: r.1, r.2)

/-- The successive non-null results of `strtok(buf, " ")`, `strtok(NULL, " ")`,
and so on: the maximal runs of characters other than a space. -/
def strtok_tokens (buf : List Char) : List (List Char) :=
  let r := split_sp buf
  if r.1 = [] then r.2 else r.1 :: r.2

/-- The C library's `strncmp(a, b, n) == 0` on strings without a NUL inside. -/
def strncmp_eq (a b : List Char) (n : Nat) : Bool := a.take n == b.take n

/-! ## Initialisation -/

/-- The source's `get_input_count`: the number of enumerated input devices. -/
def get_input_count (env : Env) : Int := (env.input_count : Int)

/-- The inner `for` of `find_input_device_ids` for the device of index `i` and
name `name`, over the first entries of the table (as many as the first
argument says); returns the table and the running `count`. -/
def match_devs (E : powerhal_h) (name : List Char) (i : Int) :
    Nat → List input_dev_map → Int → List input_dev_map × Int
  | 0, devs, count => (devs, count)
  | _ + 1, [], count => ([], count)
  | n + 1, d :: ds, count =>
    if d.dev_id = -1 ∧ strncmp_eq name d.dev_name E.MAX_CHARS = true then
      let r := match_devs E name i n ds (count + 1)
      ({ d with dev_id := i } :: r.1, r.2)
    else
      let r := match_devs E name i n ds count
      (d :: r.1, r.2)

/-- The `while (1)` of `find_input_device_ids` from index `i` on, with
`remaining` devices still enumerated: it stops when the name file of `i` does
not exist or when `count` has reached `input_cnt`. -/
def find_loop (E : powerhal_h) (env : Env) (input_cnt : Int) :
    Nat → Nat → Int → List input_dev_map → List input_dev_map
  | 0, _, _, devs => devs
  | remaining + 1, i, count, devs =>
    let name := env.sysfs_read (.input_name i) E.MAX_CHARS
    let r := match_devs E name i input_cnt.toNat devs count
    if r.2 = input_cnt then r.1 else find_loop E env input_cnt remaining (i + 1) r.2 r.1

/-- The source's `find_input_device_ids`. -/
def find_input_device_ids (E : powerhal_h) (env : Env) (pInfo : powerhal_info) :
    powerhal_info :=
  match pInfo.input_devs with
  | none => pInfo
  | some devs =>
    { pInfo with
      input_devs := some (find_loop E env pInfo.input_cnt env.input_count 0 0 devs) }

/-- The counting loop of `common_power_open`: one increment per token. -/
def count_tokens : List (List Char) → Int → Int
  | [], n => n
  | _ :: rest, n => count_tokens rest (n + 1)

/-- The storing loop of `common_power_open`: `atoi` of the first tokens, as
many as the first argument says. -/
def store_frequencies : Nat → List (List Char) → List Int
  | 0, _ => []
  | _ + 1, [] => []
  | n + 1, tok :: rest => atoi tok :: store_frequencies n rest

/-- One of the two boost loops of `common_power_open`: the first frequency at
or above the threshold replaces the value set before the loop. -/
def boost_scan (threshold : Int) (boost : Int) : List Int → Int
  | [] => boost
  | f :: rest => if f ≥ threshold then f else boost_scan threshold boost rest

/-- The control file of the available CPU frequencies. -/
def scaling_available_frequencies : sysfs_path :=
  .file "/sys/devices/system/cpu/cpu0/cpufreq/scaling_available_frequencies"

/-- The control file of the low-power cluster's top frequency. -/
def idle_top_freq : sysfs_path :=
  .file "/sys/devices/system/cpu/cpuquiet/tegra_cpuquiet/idle_top_freq"

/-- The control file behind the macro `SYS_NODE_CPU0_MAX_FREQ`, whose
expansion is in an absent header. -/
def SYS_NODE_CPU0_MAX_FREQ : sysfs_path := .file "SYS_NODE_CPU0_MAX_FREQ"

/-- An assignment `array[index] = value` to one of the per-hint arrays. -/
def set_at (array : Nat → Nat) (index value : Nat) : Nat → Nat :=
  fun k => if k = index then value else array k

/-- The source's `common_power_open`, without the creation of the TimeoutPoker
thread.  Every `sysfs_read` is taken to leave its text in a cleared buffer: the
source clears its one buffer once and reuses it, which gives the same strings
whenever a later read returns a text that ends in a character `atoi` stops at
(the newline of a control file), and may leave part of an earlier text behind
a read that returns nothing. -/
def common_power_open (E : powerhal_h) (env : Env) (pInfo : powerhal_info) :
    powerhal_info :=
  let p1 : powerhal_info :=
    if pInfo.input_devs.isNone ∨ pInfo.input_cnt = 0 then
      { pInfo with input_cnt := get_input_count env }
    else find_input_device_ids E env pInfo
  let size := 256
  let num := count_tokens (strtok_tokens (env.sysfs_read scaling_available_frequencies size)) (-1)
  let freqs :=
    store_frequencies num.toNat
      (strtok_tokens (env.sysfs_read scaling_available_frequencies size))
  let lp := atoi (env.sysfs_read idle_top_freq size)
  let interaction := boost_scan 1326000 lp (freqs.take num.toNat)
  let animation := boost_scan 1044000 lp (freqs.take num.toNat)
  let cpu0 := atoi (env.sysfs_read SYS_NODE_CPU0_MAX_FREQ size)
  let iv1 := set_at p1.hint_interval E.POWER_HINT_INTERACTION 90000
  let iv2 := set_at iv1 E.POWER_HINT_CPU_BOOST 1000000
  let iv3 := set_at iv2 E.POWER_HINT_LAUNCH_BOOST 1000000
  let iv4 := set_at iv3 E.POWER_HINT_AUDIO 700000
  let iv5 := set_at iv4 E.POWER_HINT_LOW_POWER 0
  { p1 with
    available_frequencies := freqs
    num_available_frequencies := num
    lp_max_frequency := lp
    interaction_boost_frequency := interaction
    animation_boost_frequency := animation
    cpu0_max_frequency := cpu0
    hint_interval := iv5
    fds_vsync_min_cpu := -1 }

/-! ## The governor profiles and the interactive-state entry -/

/-- The seven strings of one governor profile; `none` is a null pointer. -/
structure interactive_data_t where
  hispeed_freq : Option String
  target_loads : Option String
  above_hispeed_delay : Option String
  timer_rate : Option String
  boost_factor : Option String
  min_sample_time : Option String
  go_hispeed_load : Option String
  deriving DecidableEq, Repr

/-- The source's `interactive_data_array`. -/
def interactive_data_array : List interactive_data_t :=
  [ ⟨some "1122000", some "65 304000:75 1122000:80", some "19000", some "20000", some "0",
      some "41000", some "90"⟩,
    ⟨some "1020000", some "65 256000:75 1020000:80", some "19000", some "20000", some "0",
      some "30000", some "99"⟩,
    ⟨some "640000", some "65 256000:75 640000:80", some "80000", some "20000", some "2",
      some "30000", some "99"⟩,
    ⟨some "1020000", some "65 256000:75 1020000:80", some "19000", some "20000", some "0",
      some "30000", some "99"⟩,
    ⟨some "420000", some "80", some "80000", some "300000", some "2", some "30000",
      some "99"⟩ ]

/-- Modelled from the spec: the enumeration `nvcpl_hint_t` of `powerhal.h`,
which is not among the sources.  The selectable power modes are max-performance,
optimized-performance, battery-save and one more, numbered from 0, and
`NVCPL_HINT_COUNT` is their number, so that the profile table has the
`NVCPL_HINT_COUNT + 1` rows the source gives it. -/
def NVCPL_HINT_MAX_PERF : Int := 0

/-- Modelled from the spec: the optimized-performance mode of `nvcpl_hint_t`. -/
def NVCPL_HINT_OPT_PERF : Int := 1

/-- Modelled from the spec: the battery-save mode of `nvcpl_hint_t`. -/
def NVCPL_HINT_BAT_SAVE : Int := 2

/-- Modelled from the spec: the number of selectable modes of `nvcpl_hint_t`,
the index of the terminal non-interactive profile. -/
def NVCPL_HINT_COUNT : Int := 4

/-- The source's `get_system_power_mode`. -/
def get_system_power_mode (env : Env) : Int :=
  let value := env.property_get "persist.sys.NV_POWER_MODE"
  let power_mode : Int := if value ≠ [] then atoi value else -1
  if env.get_property_bool "persist.sys.NV_ECO.STATE.ISECO" false then NVCPL_HINT_BAT_SAVE
  else power_mode

/-- The source's `__sysfs_write`: nothing for a null string. -/
def __sysfs_write (file : String) (data : Option String) : List Event :=
  match data with
  | some d => [Event.sysfs_write (.file file) d]
  | none => []

/-- The seven writes of one profile, in program order. -/
def governor_writes (row : interactive_data_t) : List Event :=
  __sysfs_write "/sys/devices/system/cpu/cpufreq/interactive/hispeed_freq" row.hispeed_freq ++
  __sysfs_write "/sys/devices/system/cpu/cpufreq/interactive/target_loads" row.target_loads ++
  __sysfs_write "/sys/devices/system/cpu/cpufreq/interactive/above_hispeed_delay"
    row.above_hispeed_delay ++
  __sysfs_write "/sys/devices/system/cpu/cpufreq/interactive/timer_rate" row.timer_rate ++
  __sysfs_write "/sys/devices/system/cpu/cpufreq/interactive/boost_factor"
    row.boost_factor ++
  __sysfs_write "/sys/devices/system/cpu/cpufreq/interactive/min_sample_time"
    row.min_sample_time ++
  __sysfs_write "/sys/devices/system/cpu/cpufreq/interactive/go_hispeed_load"
    row.go_hispeed_load

/-- The source's `set_interactive_governor`.  `none` is a read outside the
profile table, which the C code does not define. -/
def set_interactive_governor (mode : Int) : Option (List Event) :=
  if mode < 0 then none
  else (interactive_data_array.get? mode.toNat).map governor_writes

/-- The input-device loop of `common_power_set_interactive`: the writes to the
enable files, in the order of the table. -/
def input_enable_writes (env : Env) (pInfo : powerhal_info) (state : String) : List Event :=
  match pInfo.input_devs with
  | none =>
    (List.range pInfo.input_cnt.toNat).filterMap fun (i : Nat) =>
      if env.access_W_OK (.input_enabled (i : Int)) then
        some (Event.sysfs_write (.input_enabled (i : Int)) state)
      else none
  | some devs =>
    (devs.take pInfo.input_cnt.toNat).filterMap fun d =>
      if d.dev_id = -1 then none
      else if env.access_W_OK (.input_enabled d.dev_id) then
        some (Event.sysfs_write (.input_enabled d.dev_id) state)
      else none

/-- The power mode that `common_power_set_interactive` passes to
`set_interactive_governor` when `POWER_MODE_SET_INTERACTIVE` is defined. -/
def interactive_power_mode (env : Env) (on_ : Int) : Int :=
  if on_ ≠ 0 then
    let power_mode := get_system_power_mode env
    if power_mode < NVCPL_HINT_MAX_PERF ∨ power_mode > NVCPL_HINT_COUNT then
      NVCPL_HINT_OPT_PERF
    else power_mode
  else NVCPL_HINT_COUNT

/-- The source's `common_power_set_interactive`; the first argument says
whether `POWER_MODE_SET_INTERACTIVE` is defined and `on_` is the argument `on`.  The result is the list of
writes, or `none` when the profile table is read outside its bounds. -/
def common_power_set_interactive (POWER_MODE_SET_INTERACTIVE : Bool) (env : Env)
    (pInfo : Option powerhal_info) (on_ : Int) : Option (List Event) :=
  let state := if on_ = 0 then "0" else "1"
  let boost := [Event.sysfs_write (.file "/sys/devices/platform/host1x/nvavp/boost_sclk") state]
  let inputs :=
    match pInfo with
    | some p => input_enable_writes env p state
    | none => []
  if POWER_MODE_SET_INTERACTIVE then
    (set_interactive_governor (interactive_power_mode env on_)).map fun gov =>
      boost ++ inputs ++ gov
  else
    some (boost ++ inputs ++
      [Event.sysfs_write (.file "/sys/devices/system/cpu/cpufreq/interactive/hispeed_freq")
         (if on_ = 0 then "420000" else "624000"),
       Event.sysfs_write (.file "/sys/devices/system/cpu/cpufreq/interactive/target_loads")
         (if on_ = 0 then "45 312000:75 564000:85" else "65 228000:75 624000:85"),
       Event.sysfs_write
         (.file "/sys/devices/system/cpu/cpufreq/interactive/above_hispeed_delay")
         (if on_ = 0 then "80000" else "19000"),
       Event.sysfs_write (.file "/sys/devices/system/cpu/cpufreq/interactive/timer_rate")
         (if on_ = 0 then "300000" else "20000"),
       Event.sysfs_write (.file "/sys/devices/system/cpu/cpufreq/interactive/boost_factor")
         (if on_ = 0 then "2" else "0")])

/-- The source's `set_power_mode_hint`; `mode` is `data[0]`. -/
def set_power_mode_hint (env : Env) (mode : Int) : Option (List Event) :=
  if mode < NVCPL_HINT_MAX_PERF ∨ mode > NVCPL_HINT_COUNT then some []
  else
    let status := atoi (env.sysfs_read (.file "/sys/class/backlight/pwm-backlight/brightness") 4)
    if status ≠ 0 then set_interactive_governor mode else some []


/-! ## Predicates and concrete inputs used to state the properties -/

/-- The call `common_power_hint(pInfo, hint, ...)` at clock reading `time`
passes the null check and `check_hint`. -/
def accepts (E : powerhal_h) (pInfo : Option powerhal_info) (hint time : Nat) : Bool :=
  match pInfo with
  | none => false
  | some p => (check_hint E p hint time).isSome

/-- No call of the sequence is an accepted call for hint type `h`. -/
def none_accepted (E : powerhal_h) (h : Nat) : Option powerhal_info → List hint_call → Bool
  | _, [] => true
  | pInfo, c :: rest =>
    !(decide (c.hint = h) && accepts E pInfo c.hint c.time) &&
      none_accepted E h (common_power_hint E pInfo c.hint c.data c.time c.fd).info rest

/-- Every call of the sequence is accepted. -/
def all_accepted (E : powerhal_h) : Option powerhal_info → List hint_call → Bool
  | _, [] => true
  | pInfo, c :: rest =>
    accepts E pInfo c.hint c.time &&
      all_accepted E (common_power_hint E pInfo c.hint c.data c.time c.fd).info rest

/-- A zeroed info block, as `calloc` returns it. -/
def zero_info : powerhal_info where
  input_devs := none
  input_cnt := 0
  available_frequencies := []
  num_available_frequencies := 0
  lp_max_frequency := 0
  interaction_boost_frequency := 0
  animation_boost_frequency := 0
  cpu0_max_frequency := 0
  hint_time := fun _ => 0
  hint_interval := fun _ => 0
  fds_vsync_min_cpu := 0
  ftrace_enable := false

/-- An outside world with the given contents of the available-frequency file
and of the low-power cluster's top-frequency file, no input device, no
persisted property, and every control file writable. -/
def env_of (freqs lp : String) : Env where
  sysfs_read := fun p _ =>
    if p = scaling_available_frequencies then freqs.toList
    else if p = idle_top_freq then lp.toList else []
  input_count := 0
  access_W_OK := fun _ => true
  property_get := fun _ => []
  get_property_bool := fun _ d => d

/-- The info block of a device with five CPU frequencies after
`common_power_open` on a zeroed block. -/
def opened_info : powerhal_info :=
  common_power_open android_h
    (env_of "420000 1020000 1224000 1326000 1530000 \n" "420000\n") zero_info

/-- Two calls that are not accepted calls for the interaction hint: a
low-power hint, and an interaction hint that is suppressed. -/
def quiet_calls : List hint_call :=
  [⟨android_h.POWER_HINT_LOW_POWER, none, 2000, 0⟩,
   ⟨android_h.POWER_HINT_INTERACTION, none, 3000, 0⟩]

/-- The spec's selection rule for a boost target, in its words: the first
catalog entry at or above the threshold, or the fallback when no entry is. -/
def first_at_least (threshold fallback : Int) (catalog : List Int) : Int :=
  (catalog.find? fun f => decide (threshold ≤ f)).getD fallback

/-- The hint types that the `switch` of `common_power_hint` has a `case` for. -/
def case_labels (E : powerhal_h) : List Nat :=
  [E.POWER_HINT_VSYNC, E.POWER_HINT_INTERACTION, E.POWER_HINT_LAUNCH_BOOST,
   E.POWER_HINT_CPU_BOOST, E.POWER_HINT_AUDIO, E.POWER_HINT_LOW_POWER]

/-- The resource a Coordinator request names: a PM QoS constraint, or a
control file given by its path. -/
inductive pmqos_resource where
  | constraint (c : pmqos_constraint)
  | file (filename : String)
  deriving DecidableEq, Repr

/-- The resource that a request targets, if the event is a request. -/
def Event.resource : Event → Option pmqos_resource
  | .requestPmQosTimed c _ _ _ _ => some (.constraint c)
  | .requestPmQosTimedFile f _ _ => some (.file f)
  | .requestPmQos c _ _ _ => some (.constraint c)
  | _ => none

/-- A vsync hint with a non-null payload. -/
def vsync_call (E : powerhal_h) (enabled : Int) (time : Nat) (fd : Int) : hint_call :=
  ⟨E.POWER_HINT_VSYNC, some enabled, time, fd⟩

/-- The indefinite request of `set_vsync_min_cpu_freq`. -/
def vsync_request (E : powerhal_h) : Event :=
  Event.requestPmQos .PMQOS_CONSTRAINT_CPU_FREQ E.PM_QOS_BOOST_PRIORITY
    E.PM_QOS_DEFAULT_VALUE 300000

/-- Enable, disable, enable: three vsync hints, the two requests returning the
descriptors 7 and 8. -/
def toggle_calls : List hint_call :=
  [vsync_call android_h 1 1000 7, vsync_call android_h 0 2000 0, vsync_call android_h 1 3000 8]

/-- Enable twice, the Coordinator failing both requests (descriptor `-1`). -/
def failed_enable_calls : List hint_call :=
  [vsync_call android_h 1 1000 (-1), vsync_call android_h 1 2000 (-1)]

/-- The persisted power-mode indicator as the spec sees it: unset when the
property is empty, otherwise the integer that `atoi` reads from it. -/
def persisted_power_mode (env : Env) : Option Int :=
  if env.property_get "persist.sys.NV_POWER_MODE" = [] then none
  else some (atoi (env.property_get "persist.sys.NV_POWER_MODE"))

/-- The persisted battery-saver flag. -/
def battery_saver (env : Env) : Bool :=
  env.get_property_bool "persist.sys.NV_ECO.STATE.ISECO" false

/-- The row of the profile table for a mode inside the table. -/
def profile_row (mode : Int) : Option interactive_data_t :=
  if mode < 0 then none else interactive_data_array.get? mode.toNat

/-- The device indices whose enable file one call of
`common_power_set_interactive` writes, in the spec's words: with a configured
table, the entries among its first `input_cnt` that are resolved and whose
enable file is writable; without a table, the indices below `input_cnt` whose
enable file is writable. -/
def enable_targets (env : Env) (pInfo : powerhal_info) : List Int :=
  match pInfo.input_devs with
  | none =>
    ((List.range pInfo.input_cnt.toNat).filter fun (i : Nat) =>
      env.access_W_OK (.input_enabled (i : Int))).map fun (i : Nat) => (i : Int)
  | some devs =>
    ((devs.take pInfo.input_cnt.toNat).filter fun d =>
      decide (d.dev_id ≠ -1) && env.access_W_OK (.input_enabled d.dev_id)).map fun d =>
        d.dev_id

/-- An outside world with the given persisted power mode and battery-saver
flag, in which the enable file of every input device but `input5` is
writable. -/
def env_with (power_mode : String) (eco : Bool) : Env where
  sysfs_read := fun _ _ => []
  input_count := 0
  access_W_OK := fun p => decide (p ≠ .input_enabled 5)
  property_get := fun name =>
    if name = "persist.sys.NV_POWER_MODE" then power_mode.toList else []
  get_property_bool := fun name d =>
    if name = "persist.sys.NV_ECO.STATE.ISECO" then eco else d

/-- The board's three input devices, the first resolved to `input3`, the
second unresolved, the third resolved to `input5`. -/
def board_info : powerhal_info :=
  { opened_info with
    input_devs := some [⟨3, "raydium_ts\n".toList⟩, ⟨-1, "touch\n".toList⟩,
      ⟨5, "touch_fusion\n".toList⟩]
    input_cnt := 3 }

/-- The value of a run of decimal digits read after the value `acc`. -/
def decimal_value_from (acc : Nat) : List Char → Nat
  | [] => acc
  | c :: cs => decimal_value_from (acc * 10 + (c.toNat - 48)) cs

/-- The value of a numeral, a run of decimal digits. -/
def decimal_value (ds : List Char) : Nat := decimal_value_from 0 ds

/-- A text in the format in which the kernel prints the frequency table:
every numeral is followed by spaces (one more than the number paired with
it), and a newline ends the text. -/
def kernel_text : List (List Char × Nat) → List Char
  | [] => ['\n']
  | t :: rest => t.1 ++ List.replicate (t.2 + 1) ' ' ++ kernel_text rest

/-- The five numerals of the sample frequency table, each followed by one
space. -/
def sample_numerals : List (List Char × Nat) :=
  [("420000".toList, 0), ("1020000".toList, 0), ("1224000".toList, 0),
   ("1326000".toList, 0), ("1530000".toList, 0)]

/-- The duration of a timed request, in nanoseconds; `none` for an event that
is not a timed request. -/
def Event.timeout_ns : Event → Option Nat
  | .requestPmQosTimed _ _ _ _ t => some t
  | .requestPmQosTimedFile _ _ t => some t
  | _ => none

/-- An outside world with the given persisted power mode, battery-saver flag
and backlight brightness. -/
def env_lit (power_mode : String) (eco : Bool) (brightness : String) : Env where
  sysfs_read := fun p _ =>
    if p = .file "/sys/class/backlight/pwm-backlight/brightness" then brightness.toList
    else []
  input_count := 0
  access_W_OK := fun _ => true
  property_get := fun name =>
    if name = "persist.sys.NV_POWER_MODE" then power_mode.toList else []
  get_property_bool := fun name d =>
    if name = "persist.sys.NV_ECO.STATE.ISECO" then eco else d

/-- The hint types to which `common_power_open` gives a non-zero interval. -/
def throttled_hints (E : powerhal_h) : List Nat :=
  [E.POWER_HINT_INTERACTION, E.POWER_HINT_CPU_BOOST, E.POWER_HINT_LAUNCH_BOOST,
   E.POWER_HINT_AUDIO]

/-- The durations, in nanoseconds, of the timed requests among the events. -/
def timeouts_ns (events : List Event) : List Nat := events.filterMap Event.timeout_ns

/-- The name of input device `i`, as `find_input_device_ids` reads it into its
buffer of `MAX_CHARS` bytes, agrees with `nm` in the comparison the code
makes, `strncmp(name, nm, MAX_CHARS) == 0`. -/
def name_matches (E : powerhal_h) (env : Env) (i : Nat) (nm : List Char) : Bool :=
  strncmp_eq (env.sysfs_read (.input_name (i : Int)) E.MAX_CHARS) nm E.MAX_CHARS

/-- The smallest index among `i`, `i + 1`, ... (as many as the first number
says) whose device name matches `nm`, or -1 when none of them does. -/
def first_match_from (E : powerhal_h) (env : Env) (nm : List Char) : Nat → Nat → Int
  | 0, _ => -1
  | remaining + 1, i =>
    if name_matches E env i nm = true then (i : Int)
    else first_match_from E env nm remaining (i + 1)

/-- The smallest index of an enumerated input device whose name matches `nm`,
or -1 when no enumerated device matches. -/
def first_match (E : powerhal_h) (env : Env) (nm : List Char) : Int :=
  first_match_from E env nm env.input_count 0

/-- One pass of the inner `for` over one table entry: an unresolved entry
whose name matches is bound to `i`. -/
def bind_matching (E : powerhal_h) (name : List Char) (i : Int) (d : input_dev_map) :
    input_dev_map :=
  if d.dev_id = -1 ∧ strncmp_eq name d.dev_name E.MAX_CHARS = true then
    { d with dev_id := i }
  else d

/-- An unresolved table entry bound to the first match among the devices from
`i` on; a resolved entry as it is. -/
def resolve_entry (E : powerhal_h) (env : Env) (remaining i : Nat) (d : input_dev_map) :
    input_dev_map :=
  if d.dev_id = -1 then { d with dev_id := first_match_from E env d.dev_name remaining i }
  else d

/-- The source's table `input_devs` of `power.cpp`, every entry unresolved. -/
def input_devs : List input_dev_map :=
  [⟨-1, "raydium_ts\n".toList⟩, ⟨-1, "touch\n".toList⟩, ⟨-1, "touch_fusion\n".toList⟩]

/-- A zeroed block with the table and count that `ardbeg_power_init` stores in
it before it calls `common_power_init`. -/
def ardbeg_info : powerhal_info :=
  { zero_info with input_devs := some input_devs, input_cnt := 3 }

/-- An outside world whose enumerated input devices have the given names (the
contents of their name files), of which `sysfs_read` returns as many bytes as
the buffer holds. -/
def env_inputs (names : List String) : Env where
  sysfs_read := fun p size =>
    match p with
    | .input_name i => ((names.getD i.toNat "").toList).take size
    | _ => []
  input_count := names.length
  access_W_OK := fun _ => true
  property_get := fun _ => []
  get_property_bool := fun _ d => d

/-- A table with a single configured name, longer than `MAX_CHARS` = 32. -/
def long_name_info : powerhal_info :=
  { zero_info with
    input_devs := some [⟨-1, "touchscreen_controller_panel_v2_rev_b\n".toList⟩]
    input_cnt := 1 }

/-! ## Shared lemmas -/

theorem check_hint_eq_some {E : powerhal_h} {p : powerhal_info} {hint time t : Nat}
    (h : check_hint E p hint time = some t) : t = time := by
  unfold check_hint at h
  split_ifs at h
  exact (Option.some.inj h).symm

theorem hint_switch_arrays (E : powerhal_h) (p : powerhal_info) (hint : Nat)
    (data : Option Int) (fd : Int) :
    (hint_switch E p hint data fd).1.hint_time = p.hint_time ∧
      (hint_switch E p hint data fd).1.hint_interval = p.hint_interval := by
  unfold hint_switch
  split_ifs
  · cases data with
    | none => exact ⟨rfl, rfl⟩
    | some enabled =>
      simp only [set_vsync_min_cpu_freq]
      split_ifs <;> exact ⟨rfl, rfl⟩
  all_goals exact ⟨rfl, rfl⟩

/-- A rejected call changes nothing and has no event. -/
theorem common_power_hint_rejected (E : powerhal_h) (pInfo : Option powerhal_info)
    (hint : Nat) (data : Option Int) (time : Nat) (fd : Int)
    (h : accepts E pInfo hint time = false) :
    common_power_hint E pInfo hint data time fd = ⟨pInfo, []⟩ := by
  cases pInfo with
  | none => rfl
  | some p =>
    simp only [accepts] at h
    cases hc : check_hint E p hint time with
    | none => simp [common_power_hint, hc]
    | some t => simp [hc] at h

/-- An accepted call leaves a block whose time for the hint is the clock
reading, and touches no other time and no interval. -/
theorem common_power_hint_accepted (E : powerhal_h) (p : powerhal_info)
    (hint : Nat) (data : Option Int) (time : Nat) (fd : Int)
    (h : accepts E (some p) hint time = true) :
    ∃ q, (common_power_hint E (some p) hint data time fd).info = some q ∧
      q.hint_time hint = time ∧ (∀ k, k ≠ hint → q.hint_time k = p.hint_time k) ∧
      q.hint_interval = p.hint_interval ∧
      (common_power_hint E (some p) hint data time fd).events =
        (hint_switch E p hint data fd).2 := by
  simp only [accepts] at h
  cases hc : check_hint E p hint time with
  | none => simp [hc] at h
  | some t =>
    have ht := check_hint_eq_some hc
    subst ht
    refine ⟨{ (hint_switch E p hint data fd).1 with
        hint_time := fun k => if k = hint then t else (hint_switch E p hint data fd).1.hint_time k },
      ?_, ?_, ?_, ?_, ?_⟩
    · simp only [common_power_hint, hc]
    · simp
    · intro k hk
      simp [hk, (hint_switch_arrays E p hint data fd).1]
    · exact (hint_switch_arrays E p hint data fd).2
    · simp only [common_power_hint, hc]

/-- Whatever a call does, it keeps the intervals, and it keeps the time of
every hint type for which it is not an accepted call. -/
theorem common_power_hint_keeps (E : powerhal_h) (p : powerhal_info)
    (hint : Nat) (data : Option Int) (time : Nat) (fd : Int) :
    ∃ q, (common_power_hint E (some p) hint data time fd).info = some q ∧
      q.hint_interval = p.hint_interval ∧
      (∀ k, ¬ (hint = k ∧ accepts E (some p) hint time = true) →
        q.hint_time k = p.hint_time k) := by
  cases hacc : accepts E (some p) hint time with
  | false =>
    rw [common_power_hint_rejected E (some p) hint data time fd hacc]
    exact ⟨p, rfl, rfl, fun _ _ => rfl⟩
  | true =>
    obtain ⟨q, hq, _, hother, hiv, _⟩ := common_power_hint_accepted E p hint data time fd hacc
    refine ⟨q, hq, hiv, ?_⟩
    intro k hk
    apply hother
    intro hkk
    exact hk ⟨hkk.symm, rfl⟩

/-- A run in which no call is an accepted call for `h` keeps the time and the
interval of `h`. -/
theorem run_hints_keeps (E : powerhal_h) (h : Nat) (mid : List hint_call) :
    ∀ p : powerhal_info, none_accepted E h (some p) mid = true →
      ∃ q, (run_hints E (some p) mid).info = some q ∧
        q.hint_time h = p.hint_time h ∧ q.hint_interval = p.hint_interval := by
  induction mid with
  | nil => intro p _; exact ⟨p, rfl, rfl, rfl⟩
  | cons c rest ih =>
    intro p hna
    simp only [none_accepted, Bool.and_eq_true, Bool.not_eq_true', Bool.and_eq_false_imp,
      decide_eq_true_eq] at hna
    obtain ⟨q, hq, hiv, htime⟩ := common_power_hint_keeps E p c.hint c.data c.time c.fd
    rw [hq] at hna
    obtain ⟨q2, hq2, ht2, hiv2⟩ := ih q hna.2
    refine ⟨q2, ?_, ?_, ?_⟩
    · simp only [run_hints, hq, hq2]
    · rw [ht2]
      apply htime
      rintro ⟨h1, h2⟩
      have := hna.1 h1
      simp [h2] at this
    · rw [hiv2, hiv]

/-! ## C1: debouncing of two calls for one hint type -/

/-- Debouncing in terms of the values of the variable `time`: for a hint type
`h` with interval `I > 0`, let a call whose `time` is `t1 > 0` be accepted, let
no call after it be an accepted call for `h`, and let the next call for `h`
have `time` `t2 ≥ t1`.  When `t2 - t1 < I` that call is suppressed: it has no
event at all and leaves the info block, all times included, as it was.  When
`t2 - t1 ≥ I` it is accepted and the time recorded for `h` becomes `t2`.
(Acceptance at `t1` already says that `h` is below `MAX_POWER_HINT_COUNT`.) -/
theorem debounce_window (E : powerhal_h) (s0 : powerhal_info) (h I t1 t2 : Nat)
    (d1 d2 : Option Int) (fd1 fd2 : Int) (mid : List hint_call)
    (hI : s0.hint_interval h = I) (hpos : 0 < I) (ht1 : 0 < t1) (hle : t1 ≤ t2)
    (ht2 : t2 < 2 ^ 64)
    (hacc : accepts E (some s0) h t1 = true)
    (hmid : none_accepted E h (common_power_hint E (some s0) h d1 t1 fd1).info mid = true) :
    (t2 - t1 < I →
      (common_power_hint E
          (run_hints E (common_power_hint E (some s0) h d1 t1 fd1).info mid).info
          h d2 t2 fd2).events = [] ∧
      (common_power_hint E
          (run_hints E (common_power_hint E (some s0) h d1 t1 fd1).info mid).info
          h d2 t2 fd2).info =
        (run_hints E (common_power_hint E (some s0) h d1 t1 fd1).info mid).info) ∧
    (I ≤ t2 - t1 →
      accepts E (run_hints E (common_power_hint E (some s0) h d1 t1 fd1).info mid).info
          h t2 = true ∧
      ∃ q, (common_power_hint E
          (run_hints E (common_power_hint E (some s0) h d1 t1 fd1).info mid).info
          h d2 t2 fd2).info = some q ∧ q.hint_time h = t2) := by
  obtain ⟨q1, hq1, hq1t, _, hq1i, _⟩ := common_power_hint_accepted E s0 h d1 t1 fd1 hacc
  rw [hq1] at hmid ⊢
  obtain ⟨q, hq, hqt, hqi⟩ := run_hints_keeps E h mid q1 hmid
  rw [hq]
  have hrange : h < E.MAX_POWER_HINT_COUNT := by
    simp only [accepts, check_hint] at hacc
    by_contra hge
    simp [Nat.not_lt.mp hge] at hacc
  have htime : q.hint_time h = t1 := by rw [hqt, hq1t]
  have hival : q.hint_interval h = I := by rw [hqi, hq1i, hI]
  have hsub : (t2 + 2 ^ 64 - t1) % 2 ^ 64 = t2 - t1 := by omega
  constructor
  · intro hlt
    have hrej : accepts E (some q) h t2 = false := by
      simp only [accepts, check_hint, htime, hival, hsub]
      simp [Nat.not_le.mpr hrange, hlt]
      omega
    rw [common_power_hint_rejected E (some q) h d2 t2 fd2 hrej]
    exact ⟨rfl, rfl⟩
  · intro hge
    have hacc2 : accepts E (some q) h t2 = true := by
      simp only [accepts, check_hint, htime, hival, hsub]
      simp [Nat.not_le.mpr hrange, Nat.not_lt.mpr hge]
    obtain ⟨q2, hq2, hq2t, _⟩ := common_power_hint_accepted E q h d2 t2 fd2 hacc2
    exact ⟨hacc2, q2, hq2, hq2t⟩

/-- An instance of the debouncing of `time` values: on the opened block, an
interaction hint accepted at 1000, then a low-power hint and a suppressed
interaction hint, then an interaction hint at 50000 (inside the 90000
window). -/
theorem debounce_window_witness :
    opened_info.hint_interval 2 = 90000 ∧
    accepts android_h (some opened_info) 2 1000 = true ∧
    none_accepted android_h 2
      (common_power_hint android_h (some opened_info) 2 none 1000 0).info quiet_calls = true ∧
    (50000 - 1000 < 90000 →
      (common_power_hint android_h
          (run_hints android_h
            (common_power_hint android_h (some opened_info) 2 none 1000 0).info
            quiet_calls).info
          2 none 50000 0).events = [] ∧
      (common_power_hint android_h
          (run_hints android_h
            (common_power_hint android_h (some opened_info) 2 none 1000 0).info
            quiet_calls).info
          2 none 50000 0).info =
        (run_hints android_h
          (common_power_hint android_h (some opened_info) 2 none 1000 0).info
          quiet_calls).info) :=
  ⟨by decide, by decide, by decide,
   (debounce_window android_h opened_info 2 90000 1000 50000 none none 0 0 quiet_calls
      (by decide) (by decide) (by decide) (by decide) (by norm_num) (by decide)
      (by decide)).1⟩

theorem wrap_long_of_fits (LONG_BIT : Nat) (v : Int) (hbit : 1 ≤ LONG_BIT) (h0 : 0 ≤ v)
    (hv : v < 2 ^ (LONG_BIT - 1)) : wrap_long LONG_BIT v = v := by
  obtain ⟨k, rfl⟩ : ∃ k, LONG_BIT = k + 1 := ⟨LONG_BIT - 1, by omega⟩
  simp only [Nat.add_sub_cancel] at hv
  have hp : (2 : Int) ^ (k + 1) = 2 * 2 ^ k := by ring
  have hpos : (0 : Int) < 2 ^ k := by positivity
  unfold wrap_long
  simp only [Nat.add_sub_cancel]
  rw [Int.emod_eq_of_lt (by omega) (by omega)]
  omega

/-- Where line 107 does not overflow `long`, `time` is the number of whole
microseconds of the clock reading. -/
theorem check_hint_time_exact (LONG_BIT : Nat) (ts : timespec) (hbit : 1 ≤ LONG_BIT)
    (h64 : LONG_BIT ≤ 64)
    (hfit : ts.tv_sec * 1000000 + ts.tv_nsec / 1000 < 2 ^ (LONG_BIT - 1)) :
    check_hint_time LONG_BIT ts = ts.tv_sec * 1000000 + ts.tv_nsec / 1000 := by
  have hfit' : (ts.tv_sec : Int) * 1000000 + ((ts.tv_nsec / 1000 : Nat) : Int) <
      (2 : Int) ^ (LONG_BIT - 1) := by exact_mod_cast hfit
  have hdiv : ((ts.tv_nsec : Int) / 1000) = ((ts.tv_nsec / 1000 : Nat) : Int) := by
    norm_cast
  have hq : (0 : Int) ≤ ((ts.tv_nsec / 1000 : Nat) : Int) := Int.natCast_nonneg _
  have hs : (0 : Int) ≤ (ts.tv_sec : Int) := Int.natCast_nonneg _
  have hle : (2 : Int) ^ (LONG_BIT - 1) ≤ 2 ^ 63 :=
    pow_le_pow_right₀ (by norm_num) (by omega)
  have hin : wrap_long LONG_BIT ((ts.tv_sec : Int) * 1000000) = (ts.tv_sec : Int) * 1000000 :=
    wrap_long_of_fits LONG_BIT _ hbit (by omega) (by omega)
  unfold check_hint_time
  rw [hdiv, hin, wrap_long_of_fits LONG_BIT _ hbit (by omega) (by omega),
    Int.emod_eq_of_lt (by omega) (by omega)]
  have hcast : (ts.tv_sec : Int) * 1000000 + ((ts.tv_nsec / 1000 : Nat) : Int) =
      ((ts.tv_sec * 1000000 + ts.tv_nsec / 1000 : Nat) : Int) := by push_cast; ring
  rw [hcast, Int.toNat_ofNat]

/-- Debouncing in terms of the clock: as long as line 107 does not overflow
`long` and the first call is not made in the first microsecond of the clock,
two calls for a throttled hint type, the first accepted and no accepted call
for the type in between, are told apart by the whole microseconds between
them, as the claim states. -/
theorem debounce_window_instants (E : powerhal_h) (LONG_BIT : Nat) (s0 : powerhal_info)
    (h I : Nat) (ts1 ts2 : timespec) (d1 d2 : Option Int) (fd1 fd2 : Int)
    (mid : List hint_call) (hbit : 1 ≤ LONG_BIT) (h64 : LONG_BIT ≤ 64)
    (hfit : ts2.tv_sec * 1000000 + ts2.tv_nsec / 1000 < 2 ^ (LONG_BIT - 1))
    (hI : s0.hint_interval h = I) (hpos : 0 < I)
    (ht1 : 0 < ts1.tv_sec * 1000000 + ts1.tv_nsec / 1000)
    (hle : ts1.tv_sec * 1000000 + ts1.tv_nsec / 1000 ≤
      ts2.tv_sec * 1000000 + ts2.tv_nsec / 1000)
    (hacc : accepts E (some s0) h (check_hint_time LONG_BIT ts1) = true)
    (hmid : none_accepted E h
      (common_power_hint_at E LONG_BIT (some s0) h d1 ts1 fd1).info mid = true) :
    ((ts2.tv_sec * 1000000 + ts2.tv_nsec / 1000) -
        (ts1.tv_sec * 1000000 + ts1.tv_nsec / 1000) < I →
      (common_power_hint_at E LONG_BIT
          (run_hints E (common_power_hint_at E LONG_BIT (some s0) h d1 ts1 fd1).info mid).info
          h d2 ts2 fd2).events = [] ∧
      (common_power_hint_at E LONG_BIT
          (run_hints E (common_power_hint_at E LONG_BIT (some s0) h d1 ts1 fd1).info mid).info
          h d2 ts2 fd2).info =
        (run_hints E (common_power_hint_at E LONG_BIT (some s0) h d1 ts1 fd1).info mid).info) ∧
    (I ≤ (ts2.tv_sec * 1000000 + ts2.tv_nsec / 1000) -
        (ts1.tv_sec * 1000000 + ts1.tv_nsec / 1000) →
      ∃ q, (common_power_hint_at E LONG_BIT
          (run_hints E (common_power_hint_at E LONG_BIT (some s0) h d1 ts1 fd1).info mid).info
          h d2 ts2 fd2).info = some q ∧
        q.hint_time h = ts2.tv_sec * 1000000 + ts2.tv_nsec / 1000) := by
  have e1 := check_hint_time_exact LONG_BIT ts1 hbit h64 (by omega)
  have e2 := check_hint_time_exact LONG_BIT ts2 hbit h64 hfit
  have hlt : ts2.tv_sec * 1000000 + ts2.tv_nsec / 1000 < 2 ^ 64 := by
    have hle63 : 2 ^ (LONG_BIT - 1) ≤ 2 ^ 63 := Nat.pow_le_pow_right (by norm_num) (by omega)
    omega
  unfold common_power_hint_at at hmid ⊢
  rw [e1] at hacc hmid ⊢
  rw [e2]
  have key := debounce_window E s0 h I _ _ d1 d2 fd1 fd2 mid hI hpos ht1 hle hlt hacc hmid
  exact ⟨key.1, fun hge => (key.2 hge).2⟩

/-- C1 (a defect of the code): with a 32-bit `long`, a cpu-boost hint
(interval 1000000 microseconds) accepted when the clock reads 2147.4 s and
called again 100000 microseconds later, at 2147.5 s, is not suppressed.  Line
107 forms `2147 * 1000000 + 500000` in `long`; the sum is above `2 ^ 31 - 1`
and wraps to a negative value that the `uint64_t` conversion turns into
18446744071562084320, so `time - hint_time` is far above the interval and the
four cpu-boost requests are issued again.  The same two calls with a 64-bit
`long` have the `time` values 2147400000 and 2147500000 and the second is
suppressed, as the claim states.  At 4294.967296 s the wrapped value is 0, the
value the check reads as "never accepted". -/
theorem debounce_clock_overflow :
    opened_info.hint_interval android_h.POWER_HINT_CPU_BOOST = 1000000 ∧
    (2147 * 1000000 + 500000000 / 1000) - (2147 * 1000000 + 400000000 / 1000) = 100000 ∧
    check_hint_time 32 ⟨2147, 400000000⟩ = 2147400000 ∧
    check_hint_time 32 ⟨2147, 500000000⟩ = 18446744071562084320 ∧
    (check_hint_at android_h 32 opened_info android_h.POWER_HINT_CPU_BOOST
      ⟨2147, 400000000⟩).isSome = true ∧
    (common_power_hint_at android_h 32
        (common_power_hint_at android_h 32 (some opened_info)
          android_h.POWER_HINT_CPU_BOOST none ⟨2147, 400000000⟩ 0).info
        android_h.POWER_HINT_CPU_BOOST none ⟨2147, 500000000⟩ 0).events =
      [Event.requestPmQosTimed .PMQOS_CONSTRAINT_CPU_FREQ 35 (-1) 1224000 1500000000,
       Event.requestPmQosTimed .PMQOS_CONSTRAINT_ONLINE_CPUS 35 4 2 1500000000,
       Event.requestPmQosTimed .PMQOS_CONSTRAINT_GPU_FREQ 35 852000 180000 1500000000,
       Event.requestPmQosTimedFile "/dev/emc_freq_min" 792000 1500000000] ∧
    ((common_power_hint_at android_h 32
        (common_power_hint_at android_h 32 (some opened_info)
          android_h.POWER_HINT_CPU_BOOST none ⟨2147, 400000000⟩ 0).info
        android_h.POWER_HINT_CPU_BOOST none ⟨2147, 500000000⟩ 0).info.map
      fun q => q.hint_time android_h.POWER_HINT_CPU_BOOST) = some 18446744071562084320 ∧
    check_hint_time 64 ⟨2147, 400000000⟩ = 2147400000 ∧
    check_hint_time 64 ⟨2147, 500000000⟩ = 2147500000 ∧
    (common_power_hint_at android_h 64
        (common_power_hint_at android_h 64 (some opened_info)
          android_h.POWER_HINT_CPU_BOOST none ⟨2147, 400000000⟩ 0).info
        android_h.POWER_HINT_CPU_BOOST none ⟨2147, 500000000⟩ 0).events = [] ∧
    check_hint_time 32 ⟨4294, 967296000⟩ = 0 := by
  decide

/-! ## C2: the two boost frequencies -/

theorem store_frequencies_length (n : Nat) (toks : List (List Char)) :
    (store_frequencies n toks).length ≤ n := by
  induction n generalizing toks with
  | zero => simp [store_frequencies]
  | succ n ih =>
    cases toks with
    | nil => simp [store_frequencies]
    | cons tok rest =>
      simp only [store_frequencies, List.length_cons]
      exact Nat.succ_le_succ (ih rest)

theorem boost_scan_eq_first_at_least (threshold boost : Int) (catalog : List Int) :
    boost_scan threshold boost catalog = first_at_least threshold boost catalog := by
  induction catalog with
  | nil => rfl
  | cons f rest ih =>
    unfold boost_scan
    unfold first_at_least at ih ⊢
    rw [List.find?_cons]
    by_cases hf : threshold ≤ f
    · simp [hf]
    · simp [hf, ih]

/-- C2: after `common_power_open`, whatever the control files hold and
whatever block it starts from, the interaction boost frequency is the first
entry of the recorded catalog that is at least 1326000, or the low-power
cluster maximum when there is none, and the animation boost frequency is the
same with 1044000.  The two catalogs of the spec give 1326000 and 1224000,
and 300000 twice. -/
theorem boost_frequencies_first_at_least :
    (∀ (E : powerhal_h) (env : Env) (s : powerhal_info),
      (common_power_open E env s).interaction_boost_frequency =
          first_at_least 1326000 (common_power_open E env s).lp_max_frequency
            (common_power_open E env s).available_frequencies ∧
        (common_power_open E env s).animation_boost_frequency =
          first_at_least 1044000 (common_power_open E env s).lp_max_frequency
            (common_power_open E env s).available_frequencies) ∧
    (∀ (catalog : List Int) (lp_max : Int),
      boost_scan 1326000 lp_max catalog = first_at_least 1326000 lp_max catalog ∧
        boost_scan 1044000 lp_max catalog = first_at_least 1044000 lp_max catalog) ∧
    ((common_power_open android_h
          (env_of "420000 1020000 1224000 1326000 1530000 \n" "420000\n")
          zero_info).available_frequencies = [420000, 1020000, 1224000, 1326000, 1530000] ∧
      (common_power_open android_h
          (env_of "420000 1020000 1224000 1326000 1530000 \n" "420000\n")
          zero_info).lp_max_frequency = 420000 ∧
      (common_power_open android_h
          (env_of "420000 1020000 1224000 1326000 1530000 \n" "420000\n")
          zero_info).interaction_boost_frequency = 1326000 ∧
      (common_power_open android_h
          (env_of "420000 1020000 1224000 1326000 1530000 \n" "420000\n")
          zero_info).animation_boost_frequency = 1224000) ∧
    ((common_power_open android_h (env_of "300000 400000 \n" "300000\n")
          zero_info).available_frequencies = [300000, 400000] ∧
      (common_power_open android_h (env_of "300000 400000 \n" "300000\n")
          zero_info).lp_max_frequency = 300000 ∧
      (common_power_open android_h (env_of "300000 400000 \n" "300000\n")
          zero_info).interaction_boost_frequency = 300000 ∧
      (common_power_open android_h (env_of "300000 400000 \n" "300000\n")
          zero_info).animation_boost_frequency = 300000) := by
  refine ⟨?_, ?_, by decide, by decide⟩
  · intro E env s
    have hlen := store_frequencies_length
      (count_tokens (strtok_tokens (env.sysfs_read scaling_available_frequencies 256)) (-1)).toNat
      (strtok_tokens (env.sysfs_read scaling_available_frequencies 256))
    simp only [common_power_open, List.take_of_length_le hlen, boost_scan_eq_first_at_least]
    exact ⟨trivial, trivial⟩
  · intro catalog lp_max
    exact ⟨boost_scan_eq_first_at_least _ _ _, boost_scan_eq_first_at_least _ _ _⟩

/-! ## C3: the requests of an interaction hint -/

theorem interaction_ne_vsync (E : powerhal_h) :
    E.POWER_HINT_INTERACTION ≠ E.POWER_HINT_VSYNC := by
  have h := E.case_labels_distinct
  simp only [List.nodup_cons, List.mem_cons] at h
  intro heq
  exact h.1 (Or.inl heq.symm)

/-- C3: whatever the info block holds (any frequency catalog, also an empty
one), an accepted interaction hint sends the Coordinator exactly four timed
requests, in this order: online CPUs with boost priority, 4 and 2, for 500 ms;
CPU frequency with 1530000 and 1044000, for 500 ms; GPU frequency with 852000
and 72000, for 500 ms; the file `/dev/emc_freq_min` with 396000, for 2 s.
Durations are in nanoseconds. -/
theorem interaction_hint_requests (E : powerhal_h) (s : powerhal_info)
    (data : Option Int) (time : Nat) (fd : Int)
    (hacc : accepts E (some s) E.POWER_HINT_INTERACTION time = true) :
    (common_power_hint E (some s) E.POWER_HINT_INTERACTION data time fd).events.filter
        Event.isCoordinator =
      [Event.requestPmQosTimed .PMQOS_CONSTRAINT_ONLINE_CPUS E.PM_QOS_BOOST_PRIORITY 4 2
         500000000,
       Event.requestPmQosTimed .PMQOS_CONSTRAINT_CPU_FREQ E.PM_QOS_BOOST_PRIORITY
         1530000 1044000 500000000,
       Event.requestPmQosTimed .PMQOS_CONSTRAINT_GPU_FREQ E.PM_QOS_BOOST_PRIORITY
         852000 72000 500000000,
       Event.requestPmQosTimedFile "/dev/emc_freq_min" 396000 2000000000] := by
  obtain ⟨q, _, _, _, _, hev⟩ :=
    common_power_hint_accepted E s E.POWER_HINT_INTERACTION data time fd hacc
  rw [hev]
  simp only [hint_switch, interaction_ne_vsync E, if_false, if_true]
  cases s.ftrace_enable <;> simp [Event.isCoordinator, ms2ns, s2ns]

/-- Witness of C3: an interaction hint at clock reading 1000 on a zeroed block,
whose catalog is empty. -/
theorem interaction_hint_requests_witness :
    accepts android_h (some zero_info) android_h.POWER_HINT_INTERACTION 1000 = true ∧
    (common_power_hint android_h (some zero_info) android_h.POWER_HINT_INTERACTION
        none 1000 0).events.filter Event.isCoordinator =
      [Event.requestPmQosTimed .PMQOS_CONSTRAINT_ONLINE_CPUS 35 4 2 500000000,
       Event.requestPmQosTimed .PMQOS_CONSTRAINT_CPU_FREQ 35 1530000 1044000 500000000,
       Event.requestPmQosTimed .PMQOS_CONSTRAINT_GPU_FREQ 35 852000 72000 500000000,
       Event.requestPmQosTimedFile "/dev/emc_freq_min" 396000 2000000000] :=
  ⟨by decide,
   interaction_hint_requests android_h zero_info none 1000 0 (by decide)⟩

/-! ## C4 and C10: the vsync toggle -/

/-- What an accepted vsync hint with payload `enabled` does, by the payload and
the descriptor held. -/
theorem vsync_step (E : powerhal_h) (p : powerhal_info) (enabled : Int) (time : Nat)
    (fd : Int) (hacc : accepts E (some p) E.POWER_HINT_VSYNC time = true) :
    ∃ q, (common_power_hint E (some p) E.POWER_HINT_VSYNC (some enabled) time fd).info =
        some q ∧
      (enabled ≠ 0 → p.fds_vsync_min_cpu = -1 →
        q.fds_vsync_min_cpu = fd ∧
        (common_power_hint E (some p) E.POWER_HINT_VSYNC (some enabled) time fd).events =
          [vsync_request E]) ∧
      (enabled ≠ 0 → p.fds_vsync_min_cpu ≠ -1 →
        q.fds_vsync_min_cpu = p.fds_vsync_min_cpu ∧
        (common_power_hint E (some p) E.POWER_HINT_VSYNC (some enabled) time fd).events =
          []) ∧
      (enabled = 0 → 0 ≤ p.fds_vsync_min_cpu →
        q.fds_vsync_min_cpu = -1 ∧
        (common_power_hint E (some p) E.POWER_HINT_VSYNC (some enabled) time fd).events =
          [Event.close p.fds_vsync_min_cpu]) ∧
      (enabled = 0 → p.fds_vsync_min_cpu < 0 →
        q.fds_vsync_min_cpu = p.fds_vsync_min_cpu ∧
        (common_power_hint E (some p) E.POWER_HINT_VSYNC (some enabled) time fd).events =
          []) := by
  simp only [accepts] at hacc
  cases hc : check_hint E p E.POWER_HINT_VSYNC time with
  | none => simp [hc] at hacc
  | some t =>
    simp only [common_power_hint, hc, hint_switch, if_true, set_vsync_min_cpu_freq,
      vsync_request, VSyncActiveBoostFreq]
    refine ⟨_, rfl, ?_, ?_, ?_, ?_⟩
    · intro he hp
      simp [he, hp]
    · intro he hp
      simp [he, hp]
    · intro he hp
      simp [he, hp]
    · intro he hp
      have : ¬ (0 ≤ p.fds_vsync_min_cpu) := by omega
      have h1 : p.fds_vsync_min_cpu ≥ 0 ↔ False := by simp [this]
      simp [he, h1]

/-- One accepted vsync hint whose request, if made, returns a valid
descriptor keeps the balance between requests, releases and the descriptor
held. -/
theorem vsync_step_balance (E : powerhal_h) (p : powerhal_info) (enabled : Int)
    (time : Nat) (fd : Int) (hacc : accepts E (some p) E.POWER_HINT_VSYNC time = true)
    (hfd : 0 ≤ fd) (hinv : p.fds_vsync_min_cpu = -1 ∨ 0 ≤ p.fds_vsync_min_cpu) :
    ∃ q, (common_power_hint E (some p) E.POWER_HINT_VSYNC (some enabled) time fd).info =
        some q ∧
      (q.fds_vsync_min_cpu = -1 ∨ 0 ≤ q.fds_vsync_min_cpu) ∧
      List.countP Event.isIndefinite
          (common_power_hint E (some p) E.POWER_HINT_VSYNC (some enabled) time fd).events +
          (if p.fds_vsync_min_cpu = -1 then 0 else 1) =
        List.countP Event.isRelease
          (common_power_hint E (some p) E.POWER_HINT_VSYNC (some enabled) time fd).events +
          (if q.fds_vsync_min_cpu = -1 then 0 else 1) := by
  obtain ⟨q, hq, h1, h2, h3, h4⟩ := vsync_step E p enabled time fd hacc
  refine ⟨q, hq, ?_⟩
  by_cases he : enabled = 0
  · rcases hinv with hp | hp
    · obtain ⟨hqf, hev⟩ := h4 he (by omega)
      rw [hev, hqf]
      exact ⟨Or.inl hp, by simp⟩
    · obtain ⟨hqf, hev⟩ := h3 he hp
      have hne : p.fds_vsync_min_cpu ≠ -1 := by omega
      rw [hev, hqf]
      exact ⟨Or.inl rfl, by simp [hne, Event.isIndefinite, Event.isRelease]⟩
  · by_cases hp : p.fds_vsync_min_cpu = -1
    · obtain ⟨hqf, hev⟩ := h1 he hp
      have hne : fd ≠ -1 := by omega
      rw [hev, hqf]
      exact ⟨Or.inr hfd, by simp [hp, hne, vsync_request, Event.isIndefinite, Event.isRelease]⟩
    · obtain ⟨hqf, hev⟩ := h2 he hp
      rw [hev, hqf]
      exact ⟨hinv, by simp⟩

/-- The balance over a run of accepted vsync hints. -/
theorem vsync_run_balance (E : powerhal_h) (calls : List hint_call) :
    ∀ p : powerhal_info,
      (∀ c ∈ calls, c.hint = E.POWER_HINT_VSYNC ∧ c.data ≠ none ∧ 0 ≤ c.fd) →
      all_accepted E (some p) calls = true →
      (p.fds_vsync_min_cpu = -1 ∨ 0 ≤ p.fds_vsync_min_cpu) →
      ∃ q, (run_hints E (some p) calls).info = some q ∧
        List.countP Event.isIndefinite (run_hints E (some p) calls).events +
            (if p.fds_vsync_min_cpu = -1 then 0 else 1) =
          List.countP Event.isRelease (run_hints E (some p) calls).events +
            (if q.fds_vsync_min_cpu = -1 then 0 else 1) := by
  induction calls with
  | nil =>
    intro p _ _ _
    exact ⟨p, rfl, by simp [run_hints]⟩
  | cons c rest ih =>
    intro p hv hacc hinv
    obtain ⟨hint, data, time, fd⟩ := c
    obtain ⟨hh, hd, hfd⟩ := hv _ (List.mem_cons_self _ _)
    simp only at hh hd hfd
    subst hh
    obtain ⟨enabled, rfl⟩ := Option.ne_none_iff_exists'.mp hd
    simp only [all_accepted, Bool.and_eq_true] at hacc
    obtain ⟨q, hq, hqinv, hbal⟩ := vsync_step_balance E p enabled time fd hacc.1 hfd hinv
    have hrest := hacc.2
    rw [hq] at hrest
    obtain ⟨q2, hq2, hbal2⟩ :=
      ih q (fun c hc => hv c (List.mem_cons_of_mem _ hc)) hrest hqinv
    refine ⟨q2, ?_, ?_⟩
    · simp only [run_hints, hq, hq2]
    · simp only [run_hints, hq, List.countP_append]
      omega

/-- C4 (as amended): start from the block that `common_power_open` leaves (no
vsync descriptor held).  For every sequence of accepted vsync hints with
non-null payloads in which every indefinite request returns a valid
(non-negative) descriptor, the number of indefinite requests issued equals the
number of releases plus 1 when a descriptor is held after the sequence, plus 0
otherwise.  Under the same condition, enabling twice in a row issues exactly
one request and nothing else; disabling while none is held issues nothing;
enable, disable, enable issues a request, the release of the descriptor that
request returned, and a second request. -/
theorem vsync_handle_balance (E : powerhal_h) (env : Env) (s0 : powerhal_info) :
    (∀ calls : List hint_call,
      (∀ c ∈ calls, c.hint = E.POWER_HINT_VSYNC ∧ c.data ≠ none ∧ 0 ≤ c.fd) →
      all_accepted E (some (common_power_open E env s0)) calls = true →
      ∃ q, (run_hints E (some (common_power_open E env s0)) calls).info = some q ∧
        List.countP Event.isIndefinite
            (run_hints E (some (common_power_open E env s0)) calls).events =
          List.countP Event.isRelease
              (run_hints E (some (common_power_open E env s0)) calls).events +
            (if q.fds_vsync_min_cpu = -1 then 0 else 1)) ∧
    (∀ (e1 e2 : Int) (t1 t2 : Nat) (fd1 fd2 : Int), e1 ≠ 0 → e2 ≠ 0 → 0 ≤ fd1 →
      all_accepted E (some (common_power_open E env s0))
        [vsync_call E e1 t1 fd1, vsync_call E e2 t2 fd2] = true →
      (run_hints E (some (common_power_open E env s0))
        [vsync_call E e1 t1 fd1, vsync_call E e2 t2 fd2]).events = [vsync_request E]) ∧
    (∀ (t : Nat) (fd : Int),
      accepts E (some (common_power_open E env s0)) E.POWER_HINT_VSYNC t = true →
      (run_hints E (some (common_power_open E env s0)) [vsync_call E 0 t fd]).events = []) ∧
    (∀ (e1 e3 : Int) (t1 t2 t3 : Nat) (fd1 fd2 fd3 : Int), e1 ≠ 0 → e3 ≠ 0 → 0 ≤ fd1 →
      all_accepted E (some (common_power_open E env s0))
        [vsync_call E e1 t1 fd1, vsync_call E 0 t2 fd2, vsync_call E e3 t3 fd3] = true →
      (run_hints E (some (common_power_open E env s0))
        [vsync_call E e1 t1 fd1, vsync_call E 0 t2 fd2, vsync_call E e3 t3 fd3]).events =
        [vsync_request E, Event.close fd1, vsync_request E]) := by
  have hinit : (common_power_open E env s0).fds_vsync_min_cpu = -1 := by
    simp [common_power_open]
  refine ⟨?_, ?_, ?_, ?_⟩
  · intro calls hv hacc
    obtain ⟨q, hq, hbal⟩ :=
      vsync_run_balance E calls (common_power_open E env s0) hv hacc (Or.inl hinit)
    refine ⟨q, hq, ?_⟩
    simpa [hinit] using hbal
  · intro e1 e2 t1 t2 fd1 fd2 he1 he2 hfd1 hacc
    simp only [all_accepted, vsync_call, Bool.and_eq_true] at hacc
    obtain ⟨q1, hq1, h1, _, _, _⟩ :=
      vsync_step E (common_power_open E env s0) e1 t1 fd1 hacc.1
    obtain ⟨hq1f, hev1⟩ := h1 he1 hinit
    have hacc2 := hacc.2.1
    rw [hq1] at hacc2
    obtain ⟨q2, hq2, _, h2, _, _⟩ := vsync_step E q1 e2 t2 fd2 hacc2
    obtain ⟨_, hev2⟩ := h2 he2 (by omega)
    simp only [run_hints, vsync_call, hev1, hq1, hev2]
    rfl
  · intro t fd hacc
    obtain ⟨q, hq, _, _, _, h4⟩ := vsync_step E (common_power_open E env s0) 0 t fd hacc
    obtain ⟨_, hev⟩ := h4 rfl (by omega)
    simp only [run_hints, vsync_call, hev]
    rfl
  · intro e1 e3 t1 t2 t3 fd1 fd2 fd3 he1 he3 hfd1 hacc
    simp only [all_accepted, vsync_call, Bool.and_eq_true] at hacc
    obtain ⟨q1, hq1, h1, _, _, _⟩ :=
      vsync_step E (common_power_open E env s0) e1 t1 fd1 hacc.1
    obtain ⟨hq1f, hev1⟩ := h1 he1 hinit
    have hacc2 := hacc.2.1
    rw [hq1] at hacc2
    obtain ⟨q2, hq2, _, _, h3, _⟩ := vsync_step E q1 0 t2 fd2 hacc2
    obtain ⟨hq2f, hev2⟩ := h3 rfl (by omega)
    have hacc3 := hacc.2.2.1
    rw [hq1, hq2] at hacc3
    obtain ⟨q3, hq3, h1', _, _, _⟩ := vsync_step E q2 e3 t3 fd3 hacc3
    obtain ⟨_, hev3⟩ := h1' he3 hq2f
    simp only [run_hints, vsync_call, hev1, hq1, hev2, hq2, hev3, hq1f]
    rfl

/-- Witness of C4: enable, disable, enable on the opened block, with the
descriptors 7 and 8. -/
theorem vsync_handle_balance_witness :
    (∀ c ∈ toggle_calls,
      c.hint = android_h.POWER_HINT_VSYNC ∧ c.data ≠ none ∧ 0 ≤ c.fd) ∧
    all_accepted android_h (some opened_info) toggle_calls = true ∧
    (∃ q, (run_hints android_h (some opened_info) toggle_calls).info = some q ∧
      List.countP Event.isIndefinite
          (run_hints android_h (some opened_info) toggle_calls).events =
        List.countP Event.isRelease
            (run_hints android_h (some opened_info) toggle_calls).events +
          (if q.fds_vsync_min_cpu = -1 then 0 else 1)) ∧
    (run_hints android_h (some opened_info) toggle_calls).events =
      [vsync_request android_h, Event.close 7, vsync_request android_h] :=
  ⟨by decide, by decide,
   (vsync_handle_balance android_h
      (env_of "420000 1020000 1224000 1326000 1530000 \n" "420000\n") zero_info).1
      toggle_calls (by decide) (by decide),
   (vsync_handle_balance android_h
      (env_of "420000 1020000 1224000 1326000 1530000 \n" "420000\n") zero_info).2.2.2
      1 1 1000 2000 3000 7 0 8 (by decide) (by decide) (by decide) (by decide)⟩

/-- Counterexample to C4 as stated: when the Coordinator fails the request
and returns `-1`, the block still reads "none held"; enabling twice in a row
then issues two indefinite requests and no release, and no descriptor is held
after the sequence, so requests minus releases is 2 where the claim says 0. -/
theorem vsync_handle_balance_counterexample :
    opened_info.fds_vsync_min_cpu = -1 ∧
    all_accepted android_h (some opened_info) failed_enable_calls = true ∧
    (run_hints android_h (some opened_info) failed_enable_calls).events =
      [vsync_request android_h, vsync_request android_h] ∧
    List.countP Event.isIndefinite
      (run_hints android_h (some opened_info) failed_enable_calls).events = 2 ∧
    List.countP Event.isRelease
      (run_hints android_h (some opened_info) failed_enable_calls).events = 0 ∧
    ((run_hints android_h (some opened_info) failed_enable_calls).info.map
      fun q => q.fds_vsync_min_cpu) = some (-1) := by
  decide

/-- C10 (as amended): an accepted vsync hint whose payload is "enable", while
no descriptor is held, issues a single indefinite request, and that request
targets the CPU-frequency constraint (boost priority, the default value and
`VSyncActiveBoostFreq` = 300000), after which the descriptor it returned is
held.  An accepted vsync hint whose payload is "disable", while a descriptor
is held, releases that descriptor and nothing is held afterwards. -/
theorem vsync_request_target (E : powerhal_h) (s : powerhal_info) (enabled : Int)
    (time : Nat) (fd : Int)
    (hacc : accepts E (some s) E.POWER_HINT_VSYNC time = true) :
    (enabled ≠ 0 → s.fds_vsync_min_cpu = -1 →
      (common_power_hint E (some s) E.POWER_HINT_VSYNC (some enabled) time fd).events =
        [Event.requestPmQos .PMQOS_CONSTRAINT_CPU_FREQ E.PM_QOS_BOOST_PRIORITY
          E.PM_QOS_DEFAULT_VALUE 300000] ∧
      (common_power_hint E (some s) E.POWER_HINT_VSYNC (some enabled) time fd).events.map
        Event.resource = [some (.constraint .PMQOS_CONSTRAINT_CPU_FREQ)] ∧
      ∃ q, (common_power_hint E (some s) E.POWER_HINT_VSYNC (some enabled) time fd).info =
        some q ∧ q.fds_vsync_min_cpu = fd) ∧
    (enabled = 0 → 0 ≤ s.fds_vsync_min_cpu →
      (common_power_hint E (some s) E.POWER_HINT_VSYNC (some enabled) time fd).events =
        [Event.close s.fds_vsync_min_cpu] ∧
      ∃ q, (common_power_hint E (some s) E.POWER_HINT_VSYNC (some enabled) time fd).info =
        some q ∧ q.fds_vsync_min_cpu = -1) := by
  obtain ⟨q, hq, h1, _, h3, _⟩ := vsync_step E s enabled time fd hacc
  constructor
  · intro he hs
    obtain ⟨hqf, hev⟩ := h1 he hs
    rw [hev]
    exact ⟨rfl, rfl, q, hq, hqf⟩
  · intro he hs
    obtain ⟨hqf, hev⟩ := h3 he hs
    rw [hev]
    exact ⟨rfl, q, hq, hqf⟩

/-- Witness of C10: "enable" on the opened block, the request returning the
descriptor 7. -/
theorem vsync_request_target_witness :
    accepts android_h (some opened_info) android_h.POWER_HINT_VSYNC 1000 = true ∧
    (1 : Int) ≠ 0 ∧ opened_info.fds_vsync_min_cpu = -1 ∧
    (common_power_hint android_h (some opened_info) android_h.POWER_HINT_VSYNC (some 1)
        1000 7).events =
      [Event.requestPmQos .PMQOS_CONSTRAINT_CPU_FREQ 35 (-1) 300000] :=
  ⟨by decide, by decide, by decide,
   ((vsync_request_target android_h opened_info 1 1000 7 (by decide)).1
      (by decide) (by decide)).1⟩

/-- Counterexample to C10 as stated: the one request that "enable" issues
while nothing is held names the CPU-frequency constraint, the resource of the
interaction hint's second request, and not the memory-controller file
`/dev/emc_freq_min`, the resource of the interaction hint's fourth request. -/
theorem vsync_request_target_counterexample :
    accepts android_h (some opened_info) android_h.POWER_HINT_VSYNC 1000 = true ∧
    opened_info.fds_vsync_min_cpu = -1 ∧
    (common_power_hint android_h (some opened_info) android_h.POWER_HINT_VSYNC (some 1)
        1000 7).events.map Event.resource =
      [some (.constraint .PMQOS_CONSTRAINT_CPU_FREQ)] ∧
    (common_power_hint android_h (some opened_info) android_h.POWER_HINT_VSYNC (some 1)
        1000 7).events.map Event.resource ≠ [some (.file "/dev/emc_freq_min")] ∧
    (common_power_hint android_h (some opened_info) android_h.POWER_HINT_INTERACTION none
        1000 7).events.map Event.resource =
      [some (.constraint .PMQOS_CONSTRAINT_ONLINE_CPUS),
       some (.constraint .PMQOS_CONSTRAINT_CPU_FREQ),
       some (.constraint .PMQOS_CONSTRAINT_GPU_FREQ),
       some (.file "/dev/emc_freq_min")] := by
  decide

/-! ## C5: the profile applied on the transition to interactive -/

theorem set_interactive_governor_eq (mode : Int) :
    set_interactive_governor mode = (profile_row mode).map governor_writes := by
  unfold set_interactive_governor profile_row
  split <;> rfl

/-- The mode passed to `set_interactive_governor` is an index of the table. -/
theorem interactive_power_mode_bounds (env : Env) (on_ : Int) :
    0 ≤ interactive_power_mode env on_ ∧ interactive_power_mode env on_ ≤ NVCPL_HINT_COUNT := by
  unfold interactive_power_mode
  simp only [NVCPL_HINT_MAX_PERF, NVCPL_HINT_COUNT, NVCPL_HINT_OPT_PERF]
  split_ifs <;> omega

theorem profile_row_of_bounds (mode : Int) (h0 : 0 ≤ mode) (h1 : mode ≤ NVCPL_HINT_COUNT) :
    ∃ row, profile_row mode = some row := by
  simp only [NVCPL_HINT_COUNT] at h1
  interval_cases mode <;> exact ⟨_, rfl⟩

/-- The shape of one call of `common_power_set_interactive` in the
profile-table build. -/
theorem common_power_set_interactive_eq (env : Env) (pInfo : Option powerhal_info)
    (on_ : Int) :
    ∃ row, profile_row (interactive_power_mode env on_) = some row ∧
      common_power_set_interactive true env pInfo on_ =
        some ([Event.sysfs_write (.file "/sys/devices/platform/host1x/nvavp/boost_sclk")
              (if on_ = 0 then "0" else "1")] ++
          (match pInfo with
            | some p => input_enable_writes env p (if on_ = 0 then "0" else "1")
            | none => []) ++
          governor_writes row) := by
  obtain ⟨h0, h1⟩ := interactive_power_mode_bounds env on_
  obtain ⟨row, hrow⟩ := profile_row_of_bounds _ h0 h1
  refine ⟨row, hrow, ?_⟩
  simp only [common_power_set_interactive, if_true, set_interactive_governor_eq, hrow,
    Option.map_some']

theorem input_enable_writes_eq (env : Env) (p : powerhal_info) (state : String) :
    input_enable_writes env p state =
      (enable_targets env p).map fun id => Event.sysfs_write (.input_enabled id) state := by
  unfold input_enable_writes enable_targets
  cases p.input_devs with
  | none =>
    simp only
    induction List.range p.input_cnt.toNat with
    | nil => rfl
    | cons i rest ih =>
      by_cases hw : env.access_W_OK (.input_enabled i) = true
      · simp [List.filterMap_cons, List.filter_cons, hw, ih]
      · simp [List.filterMap_cons, List.filter_cons, hw, ih]
  | some devs =>
    simp only
    induction List.take p.input_cnt.toNat devs with
    | nil => rfl
    | cons d rest ih =>
      by_cases hid : d.dev_id = -1
      · simp [List.filterMap_cons, List.filter_cons, hid, ih]
      · by_cases hw : env.access_W_OK (.input_enabled d.dev_id) = true
        · simp [List.filterMap_cons, List.filter_cons, hid, hw, ih]
        · simp [List.filterMap_cons, List.filter_cons, hid, hw, ih]

/-- Every row of the table that a mode inside the bounds selects has all seven
strings. -/
theorem profile_row_strings (mode : Int) (h0 : 0 ≤ mode) (h1 : mode ≤ NVCPL_HINT_COUNT) :
    ∃ hs tl ahd tr bf mst ghl : String,
      interactive_data_array.get? mode.toNat =
        some ⟨some hs, some tl, some ahd, some tr, some bf, some mst, some ghl⟩ := by
  simp only [NVCPL_HINT_COUNT] at h1
  interval_cases mode <;> exact ⟨_, _, _, _, _, _, _, rfl⟩

/-- Every write of one call of `common_power_set_interactive` in the
profile-table build: the boost flag, the enable files of the target devices,
and the seven governor files with the strings of the row that the mode
selects. -/
theorem common_power_set_interactive_writes (env : Env) (pInfo : Option powerhal_info)
    (on_ : Int) :
    ∃ hs tl ahd tr bf mst ghl : String,
      interactive_data_array.get? (interactive_power_mode env on_).toNat =
        some ⟨some hs, some tl, some ahd, some tr, some bf, some mst, some ghl⟩ ∧
      common_power_set_interactive true env pInfo on_ =
        some ([Event.sysfs_write (.file "/sys/devices/platform/host1x/nvavp/boost_sclk")
              (if on_ = 0 then "0" else "1")] ++
          (match pInfo with
            | some p =>
              (enable_targets env p).map fun id =>
                Event.sysfs_write (.input_enabled id) (if on_ = 0 then "0" else "1")
            | none => []) ++
          [Event.sysfs_write
             (.file "/sys/devices/system/cpu/cpufreq/interactive/hispeed_freq") hs,
           Event.sysfs_write
             (.file "/sys/devices/system/cpu/cpufreq/interactive/target_loads") tl,
           Event.sysfs_write
             (.file "/sys/devices/system/cpu/cpufreq/interactive/above_hispeed_delay") ahd,
           Event.sysfs_write
             (.file "/sys/devices/system/cpu/cpufreq/interactive/timer_rate") tr,
           Event.sysfs_write
             (.file "/sys/devices/system/cpu/cpufreq/interactive/boost_factor") bf,
           Event.sysfs_write
             (.file "/sys/devices/system/cpu/cpufreq/interactive/min_sample_time") mst,
           Event.sysfs_write
             (.file "/sys/devices/system/cpu/cpufreq/interactive/go_hispeed_load") ghl]) := by
  obtain ⟨h0, h1⟩ := interactive_power_mode_bounds env on_
  obtain ⟨hs, tl, ahd, tr, bf, mst, ghl, hrow⟩ := profile_row_strings _ h0 h1
  refine ⟨hs, tl, ahd, tr, bf, mst, ghl, hrow, ?_⟩
  have hnot : ¬ interactive_power_mode env on_ < 0 := by omega
  cases pInfo with
  | none =>
    simp only [common_power_set_interactive, if_true, set_interactive_governor, if_neg hnot,
      hrow, Option.map_some', governor_writes, __sysfs_write]
    rfl
  | some p =>
    simp only [common_power_set_interactive, if_true, set_interactive_governor, if_neg hnot,
      hrow, Option.map_some', governor_writes, __sysfs_write, input_enable_writes_eq]
    rfl

/-- C5 (as amended): `common_power_set_interactive` with `on` non-zero applies
the battery-save profile when the battery-saver flag is set, whatever the
persisted mode `m` is; otherwise profile `m` when
`NVCPL_HINT_MAX_PERF <= m <= NVCPL_HINT_COUNT` (so `m = NVCPL_HINT_COUNT`
applies the terminal non-interactive profile); otherwise, `m` being unset or
outside that range, the optimized-performance profile.  Applying the profile
of the selected mode is writing, after "1" to the boost flag and to the enable
files of the target devices, the seven strings of the table row of that mode
to the seven governor files, in the order of the source.  The rows of the
optimized-performance and battery-save modes are spelled out. -/
theorem interactive_on_profile (env : Env) (pInfo : Option powerhal_info) (on_ : Int)
    (hon : on_ ≠ 0) :
    (battery_saver env = true → interactive_power_mode env on_ = NVCPL_HINT_BAT_SAVE) ∧
    (battery_saver env = false → ∀ m, persisted_power_mode env = some m →
      NVCPL_HINT_MAX_PERF ≤ m → m ≤ NVCPL_HINT_COUNT →
      interactive_power_mode env on_ = m) ∧
    (battery_saver env = false →
      (persisted_power_mode env = none ∨
        ∃ m, persisted_power_mode env = some m ∧
          (m < NVCPL_HINT_MAX_PERF ∨ NVCPL_HINT_COUNT < m)) →
      interactive_power_mode env on_ = NVCPL_HINT_OPT_PERF) ∧
    (∃ hs tl ahd tr bf mst ghl : String,
      interactive_data_array.get? (interactive_power_mode env on_).toNat =
        some ⟨some hs, some tl, some ahd, some tr, some bf, some mst, some ghl⟩ ∧
      common_power_set_interactive true env pInfo on_ =
        some ([Event.sysfs_write (.file "/sys/devices/platform/host1x/nvavp/boost_sclk")
              "1"] ++
          (match pInfo with
            | some p =>
              (enable_targets env p).map fun id =>
                Event.sysfs_write (.input_enabled id) "1"
            | none => []) ++
          [Event.sysfs_write
             (.file "/sys/devices/system/cpu/cpufreq/interactive/hispeed_freq") hs,
           Event.sysfs_write
             (.file "/sys/devices/system/cpu/cpufreq/interactive/target_loads") tl,
           Event.sysfs_write
             (.file "/sys/devices/system/cpu/cpufreq/interactive/above_hispeed_delay") ahd,
           Event.sysfs_write
             (.file "/sys/devices/system/cpu/cpufreq/interactive/timer_rate") tr,
           Event.sysfs_write
             (.file "/sys/devices/system/cpu/cpufreq/interactive/boost_factor") bf,
           Event.sysfs_write
             (.file "/sys/devices/system/cpu/cpufreq/interactive/min_sample_time") mst,
           Event.sysfs_write
             (.file "/sys/devices/system/cpu/cpufreq/interactive/go_hispeed_load") ghl])) ∧
    (interactive_data_array.get? NVCPL_HINT_OPT_PERF.toNat =
        some ⟨some "1020000", some "65 256000:75 1020000:80", some "19000", some "20000",
          some "0", some "30000", some "99"⟩ ∧
      interactive_data_array.get? NVCPL_HINT_BAT_SAVE.toNat =
        some ⟨some "640000", some "65 256000:75 640000:80", some "80000", some "20000",
          some "2", some "30000", some "99"⟩) := by
  refine ⟨?_, ?_, ?_, ?_, rfl, rfl⟩
  · intro hb
    simp only [battery_saver] at hb
    simp [interactive_power_mode, get_system_power_mode, hon, hb, NVCPL_HINT_BAT_SAVE,
      NVCPL_HINT_MAX_PERF, NVCPL_HINT_COUNT]
  · intro hb m hm hlo hhi
    simp only [battery_saver] at hb
    simp only [persisted_power_mode] at hm
    split_ifs at hm with hempty
    have hm' := Option.some.inj hm
    simp only [interactive_power_mode, get_system_power_mode, hon, hb, hempty, hm',
      ne_eq, not_false_eq_true, if_true, if_false, Bool.false_eq_true]
    have : ¬ (m < NVCPL_HINT_MAX_PERF ∨ m > NVCPL_HINT_COUNT) := by omega
    simp only [this, if_false]
  · intro hb hm
    simp only [battery_saver] at hb
    simp only [persisted_power_mode] at hm
    rcases hm with hm | ⟨m, hm, hout⟩
    · split_ifs at hm with hempty
      simp [interactive_power_mode, get_system_power_mode, hon, hb, hempty,
        NVCPL_HINT_MAX_PERF]
    · split_ifs at hm with hempty
      have hm' := Option.some.inj hm
      simp only [interactive_power_mode, get_system_power_mode, hon, hb, hempty, hm',
        ne_eq, not_false_eq_true, if_true, if_false, Bool.false_eq_true]
      have : m < NVCPL_HINT_MAX_PERF ∨ m > NVCPL_HINT_COUNT := by omega
      simp only [this, if_true]
  · obtain ⟨hs, tl, ahd, tr, bf, mst, ghl, hrow, heq⟩ :=
      common_power_set_interactive_writes env pInfo on_
    refine ⟨hs, tl, ahd, tr, bf, mst, ghl, hrow, ?_⟩
    rw [heq]
    simp only [hon, if_false]

/-- Witness of C5, on the board block whose one writable resolved device is
`input3`: persisted mode 2 without battery saver selects mode 2 and writes the
strings of row 2; persisted mode 99 selects optimized performance and writes
the strings of row 1; persisted mode 2 with battery saver selects battery
save, and so does persisted mode 0 with battery saver, which writes the
strings of row 2. -/
theorem interactive_on_profile_witness :
    ((1 : Int) ≠ 0 ∧ battery_saver (env_with "2" false) = false ∧
      persisted_power_mode (env_with "2" false) = some 2 ∧
      interactive_power_mode (env_with "2" false) 1 = 2 ∧
      common_power_set_interactive true (env_with "2" false) (some board_info) 1 =
        some [Event.sysfs_write (.file "/sys/devices/platform/host1x/nvavp/boost_sclk") "1",
          Event.sysfs_write (.input_enabled 3) "1",
          Event.sysfs_write
            (.file "/sys/devices/system/cpu/cpufreq/interactive/hispeed_freq") "640000",
          Event.sysfs_write
            (.file "/sys/devices/system/cpu/cpufreq/interactive/target_loads")
            "65 256000:75 640000:80",
          Event.sysfs_write
            (.file "/sys/devices/system/cpu/cpufreq/interactive/above_hispeed_delay")
            "80000",
          Event.sysfs_write
            (.file "/sys/devices/system/cpu/cpufreq/interactive/timer_rate") "20000",
          Event.sysfs_write
            (.file "/sys/devices/system/cpu/cpufreq/interactive/boost_factor") "2",
          Event.sysfs_write
            (.file "/sys/devices/system/cpu/cpufreq/interactive/min_sample_time") "30000",
          Event.sysfs_write
            (.file "/sys/devices/system/cpu/cpufreq/interactive/go_hispeed_load") "99"]) ∧
    (persisted_power_mode (env_with "99" false) = some 99 ∧
      interactive_power_mode (env_with "99" false) 1 = NVCPL_HINT_OPT_PERF ∧
      common_power_set_interactive true (env_with "99" false) (some board_info) 1 =
        some [Event.sysfs_write (.file "/sys/devices/platform/host1x/nvavp/boost_sclk") "1",
          Event.sysfs_write (.input_enabled 3) "1",
          Event.sysfs_write
            (.file "/sys/devices/system/cpu/cpufreq/interactive/hispeed_freq") "1020000",
          Event.sysfs_write
            (.file "/sys/devices/system/cpu/cpufreq/interactive/target_loads")
            "65 256000:75 1020000:80",
          Event.sysfs_write
            (.file "/sys/devices/system/cpu/cpufreq/interactive/above_hispeed_delay")
            "19000",
          Event.sysfs_write
            (.file "/sys/devices/system/cpu/cpufreq/interactive/timer_rate") "20000",
          Event.sysfs_write
            (.file "/sys/devices/system/cpu/cpufreq/interactive/boost_factor") "0",
          Event.sysfs_write
            (.file "/sys/devices/system/cpu/cpufreq/interactive/min_sample_time") "30000",
          Event.sysfs_write
            (.file "/sys/devices/system/cpu/cpufreq/interactive/go_hispeed_load") "99"]) ∧
    (battery_saver (env_with "2" true) = true ∧
      interactive_power_mode (env_with "2" true) 1 = NVCPL_HINT_BAT_SAVE) ∧
    (persisted_power_mode (env_with "0" true) = some 0 ∧
      interactive_power_mode (env_with "0" true) 1 = NVCPL_HINT_BAT_SAVE ∧
      common_power_set_interactive true (env_with "0" true) (some board_info) 1 =
        some [Event.sysfs_write (.file "/sys/devices/platform/host1x/nvavp/boost_sclk") "1",
          Event.sysfs_write (.input_enabled 3) "1",
          Event.sysfs_write
            (.file "/sys/devices/system/cpu/cpufreq/interactive/hispeed_freq") "640000",
          Event.sysfs_write
            (.file "/sys/devices/system/cpu/cpufreq/interactive/target_loads")
            "65 256000:75 640000:80",
          Event.sysfs_write
            (.file "/sys/devices/system/cpu/cpufreq/interactive/above_hispeed_delay")
            "80000",
          Event.sysfs_write
            (.file "/sys/devices/system/cpu/cpufreq/interactive/timer_rate") "20000",
          Event.sysfs_write
            (.file "/sys/devices/system/cpu/cpufreq/interactive/boost_factor") "2",
          Event.sysfs_write
            (.file "/sys/devices/system/cpu/cpufreq/interactive/min_sample_time") "30000",
          Event.sysfs_write
            (.file "/sys/devices/system/cpu/cpufreq/interactive/go_hispeed_load") "99"]) :=
  ⟨⟨by decide, by decide, by decide,
    (interactive_on_profile (env_with "2" false) (some board_info) 1 (by decide)).2.1
      (by decide) 2 (by decide) (by decide) (by decide),
    by decide⟩,
   ⟨by decide,
    (interactive_on_profile (env_with "99" false) (some board_info) 1 (by decide)).2.2.1
      (by decide) (Or.inr ⟨99, by decide, Or.inr (by decide)⟩),
    by decide⟩,
   ⟨by decide,
    (interactive_on_profile (env_with "2" true) (some board_info) 1 (by decide)).1
      (by decide)⟩,
   ⟨by decide,
    (interactive_on_profile (env_with "0" true) (some board_info) 1 (by decide)).1
      (by decide),
    by decide⟩⟩

/-- Counterexample to C5 as stated: the persisted mode 4 = `NVCPL_HINT_COUNT`
is not one of the selectable modes (it is not below `NVCPL_HINT_COUNT`), and
the battery saver is off, yet the call with `on` = 1 does not apply the
optimized-performance profile: it passes mode 4 and writes the strings of the
terminal non-interactive row (hispeed frequency 420000), not those of the
optimized-performance row (hispeed frequency 1020000). -/
theorem interactive_on_profile_counterexample :
    battery_saver (env_with "4" false) = false ∧
    persisted_power_mode (env_with "4" false) = some 4 ∧
    ¬ ((4 : Int) < NVCPL_HINT_COUNT) ∧
    interactive_power_mode (env_with "4" false) 1 = 4 ∧
    interactive_power_mode (env_with "4" false) 1 ≠ NVCPL_HINT_OPT_PERF ∧
    common_power_set_interactive true (env_with "4" false) (some board_info) 1 =
      some [Event.sysfs_write (.file "/sys/devices/platform/host1x/nvavp/boost_sclk") "1",
        Event.sysfs_write (.input_enabled 3) "1",
        Event.sysfs_write
          (.file "/sys/devices/system/cpu/cpufreq/interactive/hispeed_freq") "420000",
        Event.sysfs_write
          (.file "/sys/devices/system/cpu/cpufreq/interactive/target_loads") "80",
        Event.sysfs_write
          (.file "/sys/devices/system/cpu/cpufreq/interactive/above_hispeed_delay") "80000",
        Event.sysfs_write
          (.file "/sys/devices/system/cpu/cpufreq/interactive/timer_rate") "300000",
        Event.sysfs_write
          (.file "/sys/devices/system/cpu/cpufreq/interactive/boost_factor") "2",
        Event.sysfs_write
          (.file "/sys/devices/system/cpu/cpufreq/interactive/min_sample_time") "30000",
        Event.sysfs_write
          (.file "/sys/devices/system/cpu/cpufreq/interactive/go_hispeed_load") "99"] := by
  decide

/-! ## C6: hint types without a dispatch entry -/

theorem hint_switch_unlabelled (E : powerhal_h) (p : powerhal_info) (hint : Nat)
    (data : Option Int) (fd : Int) (h : hint ∉ case_labels E) :
    hint_switch E p hint data fd = (p, []) := by
  simp only [case_labels, List.mem_cons, List.mem_singleton, not_or, List.not_mem_nil,
    or_false] at h
  obtain ⟨h1, h2, h3, h4, h5, h6⟩ := h
  simp only [hint_switch, h1, h2, h3, h4, h5, h6, if_false]

/-- C6 (as amended): a hint type that the dispatch does not recognise issues
no Coordinator call (no event at all).  When it lies outside the enumerated
range the call leaves the info block, every last-accepted time included, as it
was.  When it lies inside the range without a `case` of its own, the call
leaves the last-accepted time of every other hint type unchanged, and sets its
own to the clock reading if the call passes the debounce check (it leaves it
unchanged if the call is suppressed). -/
theorem unknown_hint_effect (E : powerhal_h) (s : powerhal_info) (hint : Nat)
    (data : Option Int) (time : Nat) (fd : Int)
    (hunknown : E.MAX_POWER_HINT_COUNT ≤ hint ∨ hint ∉ case_labels E) :
    (common_power_hint E (some s) hint data time fd).events = [] ∧
    (E.MAX_POWER_HINT_COUNT ≤ hint →
      (common_power_hint E (some s) hint data time fd).info = some s) ∧
    (hint < E.MAX_POWER_HINT_COUNT →
      ∃ q, (common_power_hint E (some s) hint data time fd).info = some q ∧
        (∀ k, k ≠ hint → q.hint_time k = s.hint_time k) ∧
        q.hint_time hint =
          if accepts E (some s) hint time = true then time else s.hint_time hint) := by
  have hout : E.MAX_POWER_HINT_COUNT ≤ hint →
      common_power_hint E (some s) hint data time fd = ⟨some s, []⟩ := by
    intro hge
    apply common_power_hint_rejected
    simp [accepts, check_hint, hge]
  refine ⟨?_, ?_, ?_⟩
  · cases hacc : accepts E (some s) hint time with
    | false => rw [common_power_hint_rejected E (some s) hint data time fd hacc]
    | true =>
      obtain ⟨q, _, _, _, _, hev⟩ := common_power_hint_accepted E s hint data time fd hacc
      rcases hunknown with hge | hlab
      · rw [hout hge]
      · rw [hev, hint_switch_unlabelled E s hint data fd hlab]
  · intro hge
    rw [hout hge]
  · intro _
    cases hacc : accepts E (some s) hint time with
    | false =>
      rw [common_power_hint_rejected E (some s) hint data time fd hacc]
      exact ⟨s, rfl, fun _ _ => rfl, by simp⟩
    | true =>
      obtain ⟨q, hq, hqt, hother, _, _⟩ :=
        common_power_hint_accepted E s hint data time fd hacc
      exact ⟨q, hq, hother, by simp [hqt]⟩

/-- Witness of C6: hint type 3 of the sample constants is inside the range and
has no `case`; on the opened block at clock reading 1000 it issues nothing and
only its own time changes. -/
theorem unknown_hint_effect_witness :
    (android_h.MAX_POWER_HINT_COUNT ≤ 3 ∨ 3 ∉ case_labels android_h) ∧
    (common_power_hint android_h (some opened_info) 3 none 1000 0).events = [] ∧
    (3 < android_h.MAX_POWER_HINT_COUNT →
      ∃ q, (common_power_hint android_h (some opened_info) 3 none 1000 0).info = some q ∧
        (∀ k, k ≠ 3 → q.hint_time k = opened_info.hint_time k) ∧
        q.hint_time 3 =
          if accepts android_h (some opened_info) 3 1000 = true then 1000
          else opened_info.hint_time 3) :=
  ⟨Or.inr (by decide),
   (unknown_hint_effect android_h opened_info 3 none 1000 0 (Or.inr (by decide))).1,
   (unknown_hint_effect android_h opened_info 3 none 1000 0 (Or.inr (by decide))).2.2⟩

/-- Counterexample to C6 as stated: hint type 3 lies inside the enumerated
range of the sample constants and has no dispatch entry; a call for it at
clock reading 1000 issues nothing, yet it changes the last-accepted time of
hint type 3 from 0 to 1000. -/
theorem unknown_hint_counterexample :
    3 < android_h.MAX_POWER_HINT_COUNT ∧ 3 ∉ case_labels android_h ∧
    opened_info.hint_time 3 = 0 ∧
    (common_power_hint android_h (some opened_info) 3 none 1000 0).events = [] ∧
    ((common_power_hint android_h (some opened_info) 3 none 1000 0).info.map
      fun q => q.hint_time 3) = some 1000 := by
  decide

/-! ## C7: hint types with interval 0 -/

theorem find_input_device_ids_arrays (E : powerhal_h) (env : Env) (p : powerhal_info) :
    (find_input_device_ids E env p).hint_interval = p.hint_interval ∧
      (find_input_device_ids E env p).hint_time = p.hint_time := by
  unfold find_input_device_ids
  split <;> exact ⟨rfl, rfl⟩

/-- C7: a call for a hint type inside the enumerated range whose interval is 0
passes the debounce check whatever the recorded time and the clock reading
are, and is dispatched: its events are those of the `switch` and the time
recorded for the hint becomes the clock reading.  After `common_power_open`
the low-power hint has interval 0, and a hint type that is given no interval
keeps the one the block had (0 in a zeroed block). -/
theorem zero_interval_always_dispatched (E : powerhal_h) (s : powerhal_info) (hint : Nat)
    (data : Option Int) (time : Nat) (fd : Int)
    (hrange : hint < E.MAX_POWER_HINT_COUNT) (hzero : s.hint_interval hint = 0) :
    accepts E (some s) hint time = true ∧
    (∃ q, (common_power_hint E (some s) hint data time fd).info = some q ∧
      q.hint_time hint = time) ∧
    (common_power_hint E (some s) hint data time fd).events =
      (hint_switch E s hint data fd).2 ∧
    (∀ (env : Env) (s0 : powerhal_info),
      (common_power_open E env s0).hint_interval E.POWER_HINT_LOW_POWER = 0 ∧
      ∀ k, k ≠ E.POWER_HINT_INTERACTION → k ≠ E.POWER_HINT_CPU_BOOST →
        k ≠ E.POWER_HINT_LAUNCH_BOOST → k ≠ E.POWER_HINT_AUDIO →
        k ≠ E.POWER_HINT_LOW_POWER →
        (common_power_open E env s0).hint_interval k = s0.hint_interval k) := by
  have hacc : accepts E (some s) hint time = true := by
    simp [accepts, check_hint, Nat.not_le.mpr hrange, hzero]
  obtain ⟨q, hq, hqt, _, _, hev⟩ := common_power_hint_accepted E s hint data time fd hacc
  refine ⟨hacc, ⟨q, hq, hqt⟩, hev, ?_⟩
  intro env s0
  constructor
  · simp [common_power_open, set_at]
  · intro k h1 h2 h3 h4 h5
    simp only [common_power_open, set_at, h1, h2, h3, h4, h5, if_false]
    split_ifs
    · rfl
    · rw [(find_input_device_ids_arrays E env s0).1]

/-- Witness of C7: the low-power hint on the opened block, with a recorded
time of 0 and a clock reading of 1000. -/
theorem zero_interval_always_dispatched_witness :
    android_h.POWER_HINT_LOW_POWER < android_h.MAX_POWER_HINT_COUNT ∧
    opened_info.hint_interval android_h.POWER_HINT_LOW_POWER = 0 ∧
    accepts android_h (some opened_info) android_h.POWER_HINT_LOW_POWER 1000 = true :=
  ⟨by decide, by decide,
   (zero_interval_always_dispatched android_h opened_info android_h.POWER_HINT_LOW_POWER
      none 1000 0 (by decide) (by decide)).1⟩

/-! ## C8: the catalog read from the available-frequency text -/

theorem digit_bounds (c : Char) (h : c.isDigit = true) : 48 ≤ c.toNat ∧ c.toNat ≤ 57 := by
  simp only [Char.isDigit, Bool.and_eq_true, decide_eq_true_eq] at h
  obtain ⟨h1, h2⟩ := h
  simp only [Char.toNat]
  exact ⟨h1, h2⟩

theorem digit_not_sign_or_space (c : Char) (h : c.isDigit = true) :
    isspace c = false ∧ c ≠ ' ' ∧ c ≠ '-' ∧ c ≠ '+' := by
  have hb := digit_bounds c h
  refine ⟨?_, ?_, ?_, ?_⟩
  · simp only [isspace, Bool.or_eq_false_iff, decide_eq_false_iff_not]
    refine ⟨⟨⟨⟨⟨?_, ?_⟩, ?_⟩, ?_⟩, ?_⟩, ?_⟩
    · rintro rfl; simp at hb
    · rintro rfl; simp at hb
    · rintro rfl; simp at hb
    · rintro rfl; simp at hb
    · omega
    · omega
  · rintro rfl; simp at hb
  · rintro rfl; simp at hb
  · rintro rfl; simp at hb

theorem atoi_digits_eq (ds : List Char) (hd : ∀ c ∈ ds, c.isDigit = true) :
    ∀ acc : Nat, atoi_digits ds (acc : Int) = (decimal_value_from acc ds : Int) := by
  induction ds with
  | nil => intro acc; rfl
  | cons c cs ih =>
    intro acc
    have hc := hd c (List.mem_cons_self _ _)
    have hb := digit_bounds c hc
    have hcast : (acc : Int) * 10 + ((c.toNat : Int) - 48) =
        ((acc * 10 + (c.toNat - 48) : Nat) : Int) := by omega
    show (if c.isDigit = true then atoi_digits cs ((acc : Int) * 10 + ((c.toNat : Int) - 48))
        else (acc : Int)) = (decimal_value_from (acc * 10 + (c.toNat - 48)) cs : Int)
    rw [if_pos hc, hcast]
    exact ih (fun x hx => hd x (List.mem_cons_of_mem _ hx)) _

/-- On a numeral whose value fits an `int`, `atoi` returns the value. -/
theorem atoi_numeral (ds : List Char) (hne : ds ≠ []) (hd : ∀ c ∈ ds, c.isDigit = true)
    (hfit : decimal_value ds < 2 ^ 31) : atoi ds = (decimal_value ds : Int) := by
  cases ds with
  | nil => exact absurd rfl hne
  | cons c cs =>
    obtain ⟨hsp, _, hminus, hplus⟩ := digit_not_sign_or_space c (hd c (List.mem_cons_self _ _))
    have hval := atoi_digits_eq (c :: cs) hd 0
    simp only [Nat.cast_zero] at hval
    have hdrop : List.dropWhile isspace (c :: cs) = c :: cs := by
      simp [List.dropWhile, hsp]
    unfold atoi
    rw [hdrop]
    split
    · rename_i heq; exact absurd (List.cons.inj heq).1 hminus
    · rename_i heq; exact absurd (List.cons.inj heq).1 hplus
    · rw [hval]
      unfold decimal_value at hfit ⊢
      unfold clamp_int
      omega

theorem split_sp_token (ds rest : List Char) (hns : ∀ c ∈ ds, c ≠ ' ') :
    split_sp (ds ++ ' ' :: rest) = (ds, strtok_tokens rest) := by
  induction ds with
  | nil => simp [split_sp, strtok_tokens]
  | cons c cs ih =>
    have hc : c ≠ ' ' := hns c (List.mem_cons_self _ _)
    have ih' := ih (fun x hx => hns x (List.mem_cons_of_mem _ hx))
    show split_sp (c :: (cs ++ ' ' :: rest)) = (c :: cs, strtok_tokens rest)
    simp only [split_sp, hc, if_false, ih']

theorem strtok_tokens_cons_space (rest : List Char) :
    strtok_tokens (' ' :: rest) = strtok_tokens rest := by
  have h := split_sp_token [] rest (by simp)
  simp only [List.nil_append] at h
  show (if (split_sp (' ' :: rest)).1 = [] then (split_sp (' ' :: rest)).2
    else (split_sp (' ' :: rest)).1 :: (split_sp (' ' :: rest)).2) = strtok_tokens rest
  rw [h]
  simp

theorem strtok_tokens_spaces (k : Nat) (rest : List Char) :
    strtok_tokens (List.replicate k ' ' ++ rest) = strtok_tokens rest := by
  induction k with
  | zero => simp
  | succ k ih =>
    show strtok_tokens (' ' :: (List.replicate k ' ' ++ rest)) = strtok_tokens rest
    rw [strtok_tokens_cons_space, ih]

theorem strtok_tokens_token (ds : List Char) (k : Nat) (rest : List Char) (hne : ds ≠ [])
    (hns : ∀ c ∈ ds, c ≠ ' ') :
    strtok_tokens (ds ++ List.replicate (k + 1) ' ' ++ rest) = ds :: strtok_tokens rest := by
  have h := split_sp_token ds (List.replicate k ' ' ++ rest) hns
  have hshape : ds ++ List.replicate (k + 1) ' ' ++ rest =
      ds ++ ' ' :: (List.replicate k ' ' ++ rest) := by
    simp [List.replicate_succ]
  rw [hshape]
  show (if (split_sp (ds ++ ' ' :: (List.replicate k ' ' ++ rest))).1 = [] then
      (split_sp (ds ++ ' ' :: (List.replicate k ' ' ++ rest))).2
    else (split_sp (ds ++ ' ' :: (List.replicate k ' ' ++ rest))).1 ::
      (split_sp (ds ++ ' ' :: (List.replicate k ' ' ++ rest))).2) = ds :: strtok_tokens rest
  rw [h]
  simp only [hne, if_false, strtok_tokens_spaces]

theorem strtok_tokens_kernel_text (toks : List (List Char × Nat))
    (hd : ∀ t ∈ toks, t.1 ≠ [] ∧ ∀ c ∈ t.1, c.isDigit = true) :
    strtok_tokens (kernel_text toks) = toks.map Prod.fst ++ [['\n']] := by
  induction toks with
  | nil => decide
  | cons t rest ih =>
    obtain ⟨hne, hdig⟩ := hd t (List.mem_cons_self _ _)
    have hns : ∀ c ∈ t.1, c ≠ ' ' := fun c hc => (digit_not_sign_or_space c (hdig c hc)).2.1
    simp only [kernel_text, List.map_cons, List.cons_append]
    rw [strtok_tokens_token t.1 t.2 (kernel_text rest) hne hns,
      ih (fun x hx => hd x (List.mem_cons_of_mem _ hx))]

theorem count_tokens_eq (l : List (List Char)) (n : Int) :
    count_tokens l n = n + l.length := by
  induction l generalizing n with
  | nil => simp [count_tokens]
  | cons t rest ih =>
    simp only [count_tokens, ih, List.length_cons]
    push_cast
    omega

theorem store_frequencies_prefix (l extra : List (List Char)) :
    store_frequencies l.length (l ++ extra) = l.map atoi := by
  induction l with
  | nil => simp [store_frequencies]
  | cons t rest ih =>
    show store_frequencies (rest.length + 1) (t :: (rest ++ extra)) = atoi t :: rest.map atoi
    simp only [store_frequencies, ih]

/-- C8 (as amended): when the available-frequency text that `sysfs_read`
leaves in the buffer is in the kernel's format, that is `n` decimal numerals
with values below `2 ^ 31`, each followed by one or more spaces, and then a
newline, `common_power_open` records `num_available_frequencies = n` and a
catalog whose entries are the values of those numerals in source order. -/
theorem catalog_of_kernel_text (E : powerhal_h) (env : Env) (s : powerhal_info)
    (toks : List (List Char × Nat))
    (hd : ∀ t ∈ toks, t.1 ≠ [] ∧ (∀ c ∈ t.1, c.isDigit = true) ∧ decimal_value t.1 < 2 ^ 31)
    (htext : env.sysfs_read scaling_available_frequencies 256 = kernel_text toks) :
    (common_power_open E env s).num_available_frequencies = (toks.length : Int) ∧
    (common_power_open E env s).available_frequencies.length = toks.length ∧
    (common_power_open E env s).available_frequencies =
      toks.map fun t => (decimal_value t.1 : Int) := by
  have htok := strtok_tokens_kernel_text toks (fun t ht => ⟨(hd t ht).1, (hd t ht).2.1⟩)
  have hnum : count_tokens (strtok_tokens (kernel_text toks)) (-1) = (toks.length : Int) := by
    rw [htok, count_tokens_eq]
    simp only [List.length_append, List.length_map, List.length_singleton]
    push_cast
    omega
  have hfreqs : store_frequencies toks.length (strtok_tokens (kernel_text toks)) =
      toks.map fun t => (decimal_value t.1 : Int) := by
    rw [htok]
    have hlen : toks.length = (toks.map Prod.fst).length := by simp
    rw [hlen, store_frequencies_prefix, List.map_map]
    apply List.map_congr_left
    intro t ht
    exact atoi_numeral t.1 (hd t ht).1 (hd t ht).2.1 (hd t ht).2.2
  have hopen : (common_power_open E env s).num_available_frequencies =
        count_tokens (strtok_tokens (env.sysfs_read scaling_available_frequencies 256)) (-1) ∧
      (common_power_open E env s).available_frequencies =
        store_frequencies
          (count_tokens (strtok_tokens (env.sysfs_read scaling_available_frequencies 256))
            (-1)).toNat
          (strtok_tokens (env.sysfs_read scaling_available_frequencies 256)) :=
    ⟨rfl, rfl⟩
  rw [hopen.1, hopen.2, htext, hnum, Int.toNat_ofNat, hfreqs]
  exact ⟨rfl, by simp, rfl⟩

/-- Witness of C8: the sample table of five frequencies. -/
theorem catalog_of_kernel_text_witness :
    (∀ t ∈ sample_numerals,
      t.1 ≠ [] ∧ (∀ c ∈ t.1, c.isDigit = true) ∧ decimal_value t.1 < 2 ^ 31) ∧
    (env_of "420000 1020000 1224000 1326000 1530000 \n" "420000\n").sysfs_read
      scaling_available_frequencies 256 = kernel_text sample_numerals ∧
    (common_power_open android_h
      (env_of "420000 1020000 1224000 1326000 1530000 \n" "420000\n")
      zero_info).num_available_frequencies = 5 ∧
    (common_power_open android_h
      (env_of "420000 1020000 1224000 1326000 1530000 \n" "420000\n")
      zero_info).available_frequencies =
      sample_numerals.map fun t => (decimal_value t.1 : Int) :=
  ⟨by decide, by decide,
   (catalog_of_kernel_text android_h
      (env_of "420000 1020000 1224000 1326000 1530000 \n" "420000\n") zero_info
      sample_numerals (by decide) (by decide)).1,
   (catalog_of_kernel_text android_h
      (env_of "420000 1020000 1224000 1326000 1530000 \n" "420000\n") zero_info
      sample_numerals (by decide) (by decide)).2.2⟩

/-- Counterexample to C8 as stated: the text "100 200" consists of two decimal
integers separated by white space, yet the counting loop starts at -1 and
counts two tokens, so the catalog has one entry, 100.  The text
"100\n200\n", whose separators are newlines, is a single token for `strtok`
and gives an empty catalog. -/
theorem catalog_of_text_counterexample :
    (common_power_open android_h (env_of "100 200" "") zero_info).num_available_frequencies
      = 1 ∧
    (common_power_open android_h (env_of "100 200" "") zero_info).available_frequencies
      = [100] ∧
    (common_power_open android_h (env_of "100\n200\n" "")
      zero_info).num_available_frequencies = 0 ∧
    (common_power_open android_h (env_of "100\n200\n" "") zero_info).available_frequencies
      = [] := by
  decide

/-! ## C9: the transition to non-interactive and the input devices -/

/-- C9: whatever the info block, the persisted power mode and the
battery-saver flag are, `common_power_set_interactive` with `on` = 0 passes
the terminal mode `NVCPL_HINT_COUNT` and writes, after "0" to the boost flag,
"0" to the enable file of each target device and then the seven strings of
the terminal row of the table (420000, 80, 80000, 300000, 2, 30000, 99) to the
seven governor files; with `on` non-zero it writes "1" to the enable files of
the same target devices, in the same order, and then the seven strings of the
row of the selected mode.  With a configured table the target devices are
exactly the entries that are resolved (index other than -1) and whose enable
file is writable, so no unresolved entry is written. -/
theorem interactive_off_terminal_profile (env : Env) (s : powerhal_info) :
    interactive_power_mode env 0 = NVCPL_HINT_COUNT ∧
    profile_row NVCPL_HINT_COUNT =
      some ⟨some "420000", some "80", some "80000", some "300000", some "2",
        some "30000", some "99"⟩ ∧
    common_power_set_interactive true env (some s) 0 =
      some ([Event.sysfs_write (.file "/sys/devices/platform/host1x/nvavp/boost_sclk") "0"] ++
        ((enable_targets env s).map fun id => Event.sysfs_write (.input_enabled id) "0") ++
        [Event.sysfs_write
           (.file "/sys/devices/system/cpu/cpufreq/interactive/hispeed_freq") "420000",
         Event.sysfs_write
           (.file "/sys/devices/system/cpu/cpufreq/interactive/target_loads") "80",
         Event.sysfs_write
           (.file "/sys/devices/system/cpu/cpufreq/interactive/above_hispeed_delay") "80000",
         Event.sysfs_write
           (.file "/sys/devices/system/cpu/cpufreq/interactive/timer_rate") "300000",
         Event.sysfs_write
           (.file "/sys/devices/system/cpu/cpufreq/interactive/boost_factor") "2",
         Event.sysfs_write
           (.file "/sys/devices/system/cpu/cpufreq/interactive/min_sample_time") "30000",
         Event.sysfs_write
           (.file "/sys/devices/system/cpu/cpufreq/interactive/go_hispeed_load") "99"]) ∧
    (∀ on_ : Int, on_ ≠ 0 →
      ∃ hs tl ahd tr bf mst ghl : String,
        interactive_data_array.get? (interactive_power_mode env on_).toNat =
          some ⟨some hs, some tl, some ahd, some tr, some bf, some mst, some ghl⟩ ∧
        common_power_set_interactive true env (some s) on_ =
          some ([Event.sysfs_write (.file "/sys/devices/platform/host1x/nvavp/boost_sclk")
                "1"] ++
            ((enable_targets env s).map fun id =>
              Event.sysfs_write (.input_enabled id) "1") ++
            [Event.sysfs_write
               (.file "/sys/devices/system/cpu/cpufreq/interactive/hispeed_freq") hs,
             Event.sysfs_write
               (.file "/sys/devices/system/cpu/cpufreq/interactive/target_loads") tl,
             Event.sysfs_write
               (.file "/sys/devices/system/cpu/cpufreq/interactive/above_hispeed_delay")
               ahd,
             Event.sysfs_write
               (.file "/sys/devices/system/cpu/cpufreq/interactive/timer_rate") tr,
             Event.sysfs_write
               (.file "/sys/devices/system/cpu/cpufreq/interactive/boost_factor") bf,
             Event.sysfs_write
               (.file "/sys/devices/system/cpu/cpufreq/interactive/min_sample_time") mst,
             Event.sysfs_write
               (.file "/sys/devices/system/cpu/cpufreq/interactive/go_hispeed_load")
               ghl])) ∧
    (∀ devs, s.input_devs = some devs → ∀ id : Int,
      id ∈ enable_targets env s ↔
        ∃ d ∈ devs.take s.input_cnt.toNat,
          d.dev_id = id ∧ id ≠ -1 ∧ env.access_W_OK (.input_enabled id) = true) := by
  have hmode : interactive_power_mode env 0 = NVCPL_HINT_COUNT := by
    simp [interactive_power_mode]
  refine ⟨hmode, rfl, ?_, ?_, ?_⟩
  · obtain ⟨hs, tl, ahd, tr, bf, mst, ghl, hrow, heq⟩ :=
      common_power_set_interactive_writes env (some s) 0
    rw [hmode] at hrow
    have hr := Option.some.inj hrow
    simp only [interactive_data_t.mk.injEq, Option.some.injEq] at hr
    obtain ⟨h1, h2, h3, h4, h5, h6, h7⟩ := hr
    rw [heq, ← h1, ← h2, ← h3, ← h4, ← h5, ← h6, ← h7]
    simp only [if_true]
  · intro on_ hon
    obtain ⟨hs, tl, ahd, tr, bf, mst, ghl, hrow, heq⟩ :=
      common_power_set_interactive_writes env (some s) on_
    refine ⟨hs, tl, ahd, tr, bf, mst, ghl, hrow, ?_⟩
    rw [heq]
    simp only [hon, if_false]
  · intro devs hdevs id
    simp only [enable_targets, hdevs, List.mem_map, List.mem_filter, Bool.and_eq_true,
      decide_eq_true_eq]
    constructor
    · rintro ⟨d, ⟨hd, hne, hw⟩, rfl⟩
      exact ⟨d, hd, rfl, hne, hw⟩
    · rintro ⟨d, hd, rfl, hne, hw⟩
      exact ⟨d, ⟨hd, hne, hw⟩, rfl⟩

/-- Witness of C9: the board block has `input3` resolved and writable, one
unresolved entry, and `input5` resolved but not writable; only `input3` is
written, "0" with the terminal row when turning off and "1" with the row of
the persisted mode 2 when turning on. -/
theorem interactive_off_terminal_profile_witness :
    enable_targets (env_with "2" false) board_info = [3] ∧
    (1 : Int) ≠ 0 ∧
    common_power_set_interactive true (env_with "2" false) (some board_info) 0 =
      some [Event.sysfs_write (.file "/sys/devices/platform/host1x/nvavp/boost_sclk") "0",
        Event.sysfs_write (.input_enabled 3) "0",
        Event.sysfs_write
          (.file "/sys/devices/system/cpu/cpufreq/interactive/hispeed_freq") "420000",
        Event.sysfs_write
          (.file "/sys/devices/system/cpu/cpufreq/interactive/target_loads") "80",
        Event.sysfs_write
          (.file "/sys/devices/system/cpu/cpufreq/interactive/above_hispeed_delay") "80000",
        Event.sysfs_write
          (.file "/sys/devices/system/cpu/cpufreq/interactive/timer_rate") "300000",
        Event.sysfs_write
          (.file "/sys/devices/system/cpu/cpufreq/interactive/boost_factor") "2",
        Event.sysfs_write
          (.file "/sys/devices/system/cpu/cpufreq/interactive/min_sample_time") "30000",
        Event.sysfs_write
          (.file "/sys/devices/system/cpu/cpufreq/interactive/go_hispeed_load") "99"] ∧
    (∃ hs tl ahd tr bf mst ghl : String,
      interactive_data_array.get? (interactive_power_mode (env_with "2" false) 1).toNat =
        some ⟨some hs, some tl, some ahd, some tr, some bf, some mst, some ghl⟩ ∧
      common_power_set_interactive true (env_with "2" false) (some board_info) 1 =
        some ([Event.sysfs_write (.file "/sys/devices/platform/host1x/nvavp/boost_sclk")
              "1"] ++
          ((enable_targets (env_with "2" false) board_info).map fun id =>
            Event.sysfs_write (.input_enabled id) "1") ++
          [Event.sysfs_write
             (.file "/sys/devices/system/cpu/cpufreq/interactive/hispeed_freq") hs,
           Event.sysfs_write
             (.file "/sys/devices/system/cpu/cpufreq/interactive/target_loads") tl,
           Event.sysfs_write
             (.file "/sys/devices/system/cpu/cpufreq/interactive/above_hispeed_delay") ahd,
           Event.sysfs_write
             (.file "/sys/devices/system/cpu/cpufreq/interactive/timer_rate") tr,
           Event.sysfs_write
             (.file "/sys/devices/system/cpu/cpufreq/interactive/boost_factor") bf,
           Event.sysfs_write
             (.file "/sys/devices/system/cpu/cpufreq/interactive/min_sample_time") mst,
           Event.sysfs_write
             (.file "/sys/devices/system/cpu/cpufreq/interactive/go_hispeed_load") ghl])) :=
  ⟨by decide, by decide, by decide,
   (interactive_off_terminal_profile (env_with "2" false) board_info).2.2.2.1 1
     (by decide)⟩

/-! ## C11: the resolution of the input device names -/

theorem match_devs_eq (E : powerhal_h) (name : List Char) (i : Int)
    (devs : List input_dev_map) :
    ∀ count : Int, match_devs E name i devs.length devs count =
      (devs.map (bind_matching E name i),
       count + (devs.countP fun d =>
         decide (d.dev_id = -1) && strncmp_eq name d.dev_name E.MAX_CHARS : Nat)) := by
  induction devs with
  | nil => intro count; simp [match_devs]
  | cons d ds ih =>
    intro count
    show match_devs E name i (ds.length + 1) (d :: ds) count = _
    by_cases hc : d.dev_id = -1 ∧ strncmp_eq name d.dev_name E.MAX_CHARS = true
    · simp only [match_devs, hc, and_self, if_true, ih, List.map_cons, bind_matching,
        List.countP_cons, decide_True, Bool.and_self]
      refine Prod.ext rfl ?_
      simp only [hc.2, Bool.and_true, decide_eq_true_eq, hc.1, if_true]
      push_cast
      omega
    · have hb : (decide (d.dev_id = -1) && strncmp_eq name d.dev_name E.MAX_CHARS) = false := by
        rcases not_and_or.mp hc with h | h
        · simp [h]
        · simp [Bool.not_eq_true _ ▸ h]
      simp only [match_devs, hc, if_false, ih, List.map_cons, bind_matching,
        List.countP_cons, hb]
      refine Prod.ext rfl ?_
      simp

theorem countP_bound_bind (E : powerhal_h) (name : List Char) (i : Nat)
    (devs : List input_dev_map) :
    (devs.map (bind_matching E name (i : Int))).countP (fun d => decide (d.dev_id ≠ -1)) =
      devs.countP (fun d => decide (d.dev_id ≠ -1)) +
        devs.countP fun d =>
          decide (d.dev_id = -1) && strncmp_eq name d.dev_name E.MAX_CHARS := by
  induction devs with
  | nil => rfl
  | cons d ds ih =>
    have hi : (i : Int) ≠ -1 := by omega
    simp only [List.map_cons, List.countP_cons, ih]
    by_cases hd : d.dev_id = -1
    · by_cases hm : strncmp_eq name d.dev_name E.MAX_CHARS = true
      · simp [bind_matching, hd, hm, hi]
        omega
      · simp [bind_matching, hd, hm]
    · simp [bind_matching, hd]
      omega

theorem resolve_entry_zero (E : powerhal_h) (env : Env) (i : Nat) (d : input_dev_map) :
    resolve_entry E env 0 i d = d := by
  unfold resolve_entry
  split_ifs with h
  · cases d
    simp only [first_match_from] at *
    simp_all
  · rfl

/-- The `while` loop binds every unresolved entry to its first match among the
devices it still has to visit, provided `count` is not above the number of
resolved entries (so that the loop stops early only when all are resolved). -/
theorem find_loop_eq (E : powerhal_h) (env : Env) (remaining : Nat) :
    ∀ (i : Nat) (count : Int) (devs : List input_dev_map) (cnt : Int),
      cnt = (devs.length : Int) →
      count ≤ (devs.countP (fun d => decide (d.dev_id ≠ -1)) : Nat) →
      find_loop E env cnt remaining i count devs =
        devs.map (resolve_entry E env remaining i) := by
  induction remaining with
  | zero =>
    intro i count devs cnt _ _
    simp only [find_loop]
    rw [List.map_congr_left (fun d _ => resolve_entry_zero E env i d), List.map_id']
  | succ remaining ih =>
    intro i count devs cnt hcnt hcount
    have hlen : cnt.toNat = devs.length := by omega
    have hm := match_devs_eq E (env.sysfs_read (.input_name (i : Int)) E.MAX_CHARS) (i : Int)
      devs count
    have hb := countP_bound_bind E (env.sysfs_read (.input_name (i : Int)) E.MAX_CHARS) i devs
    simp only [find_loop, hlen, hm]
    split_ifs with hall
    · -- every entry is resolved after this device
      apply List.map_congr_left
      intro d hd
      have hle := List.countP_le_length (fun d => decide (d.dev_id ≠ -1))
        (l := devs.map (bind_matching E (env.sysfs_read (.input_name (i : Int)) E.MAX_CHARS) i))
      have hfull : (devs.map (bind_matching E
          (env.sysfs_read (.input_name (i : Int)) E.MAX_CHARS) i)).countP
            (fun d => decide (d.dev_id ≠ -1)) =
          (devs.map (bind_matching E
            (env.sysfs_read (.input_name (i : Int)) E.MAX_CHARS) i)).length := by
        simp only [List.length_map] at hle ⊢
        omega
      have hbound := (List.countP_eq_length.mp hfull) _ (List.mem_map_of_mem _ hd)
      simp only [decide_eq_true_eq] at hbound
      unfold bind_matching resolve_entry at *
      by_cases hid : d.dev_id = -1
      · by_cases hmt : strncmp_eq (env.sysfs_read (.input_name (i : Int)) E.MAX_CHARS)
            d.dev_name E.MAX_CHARS = true
        · simp [hid, hmt, first_match_from, name_matches]
        · simp [hid, hmt] at hbound
      · simp [hid]
    · have hlen2 : cnt = ((devs.map (bind_matching E
          (env.sysfs_read (.input_name (i : Int)) E.MAX_CHARS) i)).length : Int) := by
        simp [hcnt]
      rw [ih (i + 1) _ _ cnt hlen2 (by rw [hb]; push_cast; omega), List.map_map]
      apply List.map_congr_left
      intro d _
      have hi : (i : Int) ≠ -1 := by omega
      simp only [Function.comp, bind_matching, resolve_entry]
      by_cases hid : d.dev_id = -1
      · by_cases hmt : strncmp_eq (env.sysfs_read (.input_name (i : Int)) E.MAX_CHARS)
            d.dev_name E.MAX_CHARS = true
        · simp [hid, hmt, hi, first_match_from, name_matches]
        · simp [hid, hmt, first_match_from, name_matches]
      · simp [hid]

theorem first_match_from_eq_neg_one (E : powerhal_h) (env : Env) (nm : List Char)
    (remaining : Nat) :
    ∀ i : Nat, first_match_from E env nm remaining i = -1 ↔
      ∀ k, i ≤ k → k < i + remaining → name_matches E env k nm = false := by
  induction remaining with
  | zero =>
    intro i
    simp only [first_match_from, true_iff]
    intro k h1 h2
    omega
  | succ remaining ih =>
    intro i
    by_cases hm : name_matches E env i nm = true
    · simp only [first_match_from, hm, if_true]
      constructor
      · intro h; omega
      · intro h
        have := h i (Nat.le_refl _) (by omega)
        simp [hm] at this
    · have hm' : name_matches E env i nm = false := by simpa using hm
      simp only [first_match_from, hm', Bool.false_eq_true, if_false, ih]
      constructor
      · intro h k h1 h2
        by_cases hk : k = i
        · rw [hk]; exact hm'
        · exact h k (by omega) (by omega)
      · intro h k h1 h2
        exact h k (by omega) (by omega)

theorem first_match_from_eq_index (E : powerhal_h) (env : Env) (nm : List Char)
    (remaining : Nat) :
    ∀ i k : Nat, first_match_from E env nm remaining i = (k : Int) ↔
      (i ≤ k ∧ k < i + remaining ∧ name_matches E env k nm = true ∧
        ∀ k', i ≤ k' → k' < k → name_matches E env k' nm = false) := by
  induction remaining with
  | zero =>
    intro i k
    simp only [first_match_from]
    constructor
    · intro h; omega
    · rintro ⟨h1, h2, _⟩; omega
  | succ remaining ih =>
    intro i k
    by_cases hm : name_matches E env i nm = true
    · simp only [first_match_from, hm, if_true]
      constructor
      · intro h
        have hk : k = i := by omega
        subst hk
        exact ⟨Nat.le_refl _, by omega, hm, fun k' h1 h2 => by omega⟩
      · rintro ⟨h1, _, _, h4⟩
        by_cases hk : k = i
        · rw [hk]
        · have := h4 i (Nat.le_refl _) (by omega)
          simp [hm] at this
    · have hm' : name_matches E env i nm = false := by simpa using hm
      simp only [first_match_from, hm', Bool.false_eq_true, if_false, ih]
      constructor
      · rintro ⟨h1, h2, h3, h4⟩
        refine ⟨by omega, by omega, h3, ?_⟩
        intro k' hk1 hk2
        by_cases hk : k' = i
        · rw [hk]; exact hm'
        · exact h4 k' (by omega) hk2
      · rintro ⟨h1, h2, h3, h4⟩
        have hk : k ≠ i := by
          rintro rfl
          exact hm h3
        exact ⟨by omega, by omega, h3, fun k' hk1 hk2 => h4 k' (by omega) hk2⟩

theorem strncmp_eq_iff_eq (a b : List Char) (n : Nat) (ha : a.length ≤ n)
    (hb : b.length ≤ n) : strncmp_eq a b n = true ↔ a = b := by
  simp [strncmp_eq, List.take_of_length_le ha, List.take_of_length_le hb]

theorem resolve_entry_idem (E : powerhal_h) (env : Env) (remaining i : Nat)
    (d : input_dev_map) :
    resolve_entry E env remaining i (resolve_entry E env remaining i d) =
      resolve_entry E env remaining i d := by
  by_cases hid : d.dev_id = -1
  · by_cases hf : first_match_from E env d.dev_name remaining i = -1
    · have hd : resolve_entry E env remaining i d = d := by
        cases d
        simp only [resolve_entry] at *
        simp_all
      rw [hd, hd]
    · simp [resolve_entry, hid, hf]
  · simp [resolve_entry, hid]

/-- With a table of `input_cnt` entries, `find_input_device_ids` keeps the
resolved entries and binds every unresolved one to its first match. -/
theorem find_input_device_ids_eq (E : powerhal_h) (env : Env) (pInfo : powerhal_info)
    (devs : List input_dev_map) (hdevs : pInfo.input_devs = some devs)
    (hcnt : pInfo.input_cnt = (devs.length : Int)) :
    find_input_device_ids E env pInfo =
      { pInfo with
        input_devs := some (devs.map (resolve_entry E env env.input_count 0)) } := by
  have hloop := find_loop_eq E env env.input_count 0 0 devs pInfo.input_cnt hcnt
    (by omega)
  unfold find_input_device_ids
  rw [hdevs]
  simp only [hloop]

/-- C11 (as amended): let the table hold `input_cnt` configured names, all
unresolved.  After `find_input_device_ids` every entry keeps its name and is
bound to the smallest index of an enumerated device whose name, as read into
the `MAX_CHARS`-byte buffer, agrees with the configured name in the first
`MAX_CHARS` characters, and it stays -1 exactly when no enumerated device
agrees so; nothing else in the block changes.  A second run changes nothing.
For names of at most `MAX_CHARS` characters, agreeing is being equal. -/
theorem input_ids_first_match (E : powerhal_h) (env : Env) (pInfo : powerhal_info)
    (devs : List input_dev_map) (hdevs : pInfo.input_devs = some devs)
    (hcnt : pInfo.input_cnt = (devs.length : Int)) (hun : ∀ d ∈ devs, d.dev_id = -1) :
    find_input_device_ids E env pInfo =
      { pInfo with
        input_devs := some (devs.map fun d =>
          ({ d with dev_id := first_match E env d.dev_name } : input_dev_map)) } ∧
    find_input_device_ids E env (find_input_device_ids E env pInfo) =
      find_input_device_ids E env pInfo ∧
    (∀ nm : List Char,
      (first_match E env nm = -1 ↔
        ∀ k, k < env.input_count → name_matches E env k nm = false) ∧
      ∀ k : Nat, first_match E env nm = (k : Int) ↔
        (k < env.input_count ∧ name_matches E env k nm = true ∧
          ∀ k', k' < k → name_matches E env k' nm = false)) ∧
    (∀ (k : Nat) (nm : List Char),
      (env.sysfs_read (.input_name (k : Int)) E.MAX_CHARS).length ≤ E.MAX_CHARS →
      nm.length ≤ E.MAX_CHARS →
      (name_matches E env k nm = true ↔
        env.sysfs_read (.input_name (k : Int)) E.MAX_CHARS = nm)) := by
  have h1 := find_input_device_ids_eq E env pInfo devs hdevs hcnt
  refine ⟨?_, ?_, ?_, ?_⟩
  · rw [h1]
    have hmap : devs.map (resolve_entry E env env.input_count 0) =
        devs.map fun d =>
          ({ d with dev_id := first_match E env d.dev_name } : input_dev_map) := by
      apply List.map_congr_left
      intro d hd
      simp only [resolve_entry, hun d hd, if_true, first_match]
    rw [hmap]
  · have h2 := find_input_device_ids_eq E env
      { pInfo with
        input_devs := some (devs.map (resolve_entry E env env.input_count 0)) }
      (devs.map (resolve_entry E env env.input_count 0)) rfl
      (by simp only [List.length_map]; exact hcnt)
    rw [h1, h2, List.map_map]
    have hidem : devs.map (resolve_entry E env env.input_count 0 ∘
          resolve_entry E env env.input_count 0) =
        devs.map (resolve_entry E env env.input_count 0) := by
      apply List.map_congr_left
      intro d _
      exact resolve_entry_idem E env env.input_count 0 d
    rw [hidem]
  · intro nm
    constructor
    · rw [first_match, first_match_from_eq_neg_one]
      constructor
      · intro h k hk
        exact h k (Nat.zero_le _) (by omega)
      · intro h k _ hk
        exact h k (by omega)
    · intro k
      rw [first_match, first_match_from_eq_index]
      constructor
      · rintro ⟨_, h2, h3, h4⟩
        exact ⟨by omega, h3, fun k' hk' => h4 k' (Nat.zero_le _) hk'⟩
      · rintro ⟨h2, h3, h4⟩
        exact ⟨Nat.zero_le _, by omega, h3, fun k' _ hk' => h4 k' hk'⟩
  · intro k nm ha hb
    exact strncmp_eq_iff_eq _ _ _ ha hb

/-- Witness of C11: the board's three names against the devices `gpio-keys`,
`touch`, `raydium_ts`, `touch`: `raydium_ts` is bound to 2, `touch` to 1 (the
smaller of 1 and 3) and `touch_fusion` stays unresolved. -/
theorem input_ids_first_match_witness :
    ardbeg_info.input_devs = some input_devs ∧
    ardbeg_info.input_cnt = (input_devs.length : Int) ∧
    (∀ d ∈ input_devs, d.dev_id = -1) ∧
    (find_input_device_ids android_h
        (env_inputs ["gpio-keys\n", "touch\n", "raydium_ts\n", "touch\n"])
        ardbeg_info).input_devs =
      some [⟨2, "raydium_ts\n".toList⟩, ⟨1, "touch\n".toList⟩,
        ⟨-1, "touch_fusion\n".toList⟩] ∧
    find_input_device_ids android_h
        (env_inputs ["gpio-keys\n", "touch\n", "raydium_ts\n", "touch\n"])
        (find_input_device_ids android_h
          (env_inputs ["gpio-keys\n", "touch\n", "raydium_ts\n", "touch\n"]) ardbeg_info) =
      find_input_device_ids android_h
        (env_inputs ["gpio-keys\n", "touch\n", "raydium_ts\n", "touch\n"]) ardbeg_info :=
  ⟨rfl, by decide, by decide, by decide,
   (input_ids_first_match android_h
      (env_inputs ["gpio-keys\n", "touch\n", "raydium_ts\n", "touch\n"]) ardbeg_info
      input_devs rfl (by decide) (by decide)).2.1⟩

/-- Counterexample to C11 as stated: the one enumerated device is named
`touchscreen_controller_panel_v2_rev_a`, the one configured name is
`touchscreen_controller_panel_v2_rev_b`.  No enumerated device has the
configured name, neither in full nor as read into the 32-byte buffer, yet the
entry does not stay unresolved: the comparison stops after 32 characters and
binds it to index 0. -/
theorem input_ids_counterexample :
    long_name_info.input_devs =
      some [⟨-1, "touchscreen_controller_panel_v2_rev_b\n".toList⟩] ∧
    long_name_info.input_cnt = 1 ∧
    (env_inputs ["touchscreen_controller_panel_v2_rev_a\n"]).input_count = 1 ∧
    "touchscreen_controller_panel_v2_rev_a\n" ≠ "touchscreen_controller_panel_v2_rev_b\n" ∧
    (env_inputs ["touchscreen_controller_panel_v2_rev_a\n"]).sysfs_read (.input_name 0)
        android_h.MAX_CHARS ≠ "touchscreen_controller_panel_v2_rev_b\n".toList ∧
    (find_input_device_ids android_h
        (env_inputs ["touchscreen_controller_panel_v2_rev_a\n"]) long_name_info).input_devs =
      some [⟨0, "touchscreen_controller_panel_v2_rev_b\n".toList⟩] := by
  decide

/-! ## C12: intervals against the durations of the overrides -/

theorem case_labels_ne (E : powerhal_h) :
    (E.POWER_HINT_VSYNC ≠ E.POWER_HINT_INTERACTION ∧
      E.POWER_HINT_VSYNC ≠ E.POWER_HINT_LAUNCH_BOOST ∧
      E.POWER_HINT_VSYNC ≠ E.POWER_HINT_CPU_BOOST ∧
      E.POWER_HINT_VSYNC ≠ E.POWER_HINT_AUDIO ∧
      E.POWER_HINT_VSYNC ≠ E.POWER_HINT_LOW_POWER) ∧
    (E.POWER_HINT_INTERACTION ≠ E.POWER_HINT_LAUNCH_BOOST ∧
      E.POWER_HINT_INTERACTION ≠ E.POWER_HINT_CPU_BOOST ∧
      E.POWER_HINT_INTERACTION ≠ E.POWER_HINT_AUDIO ∧
      E.POWER_HINT_INTERACTION ≠ E.POWER_HINT_LOW_POWER) ∧
    (E.POWER_HINT_LAUNCH_BOOST ≠ E.POWER_HINT_CPU_BOOST ∧
      E.POWER_HINT_LAUNCH_BOOST ≠ E.POWER_HINT_AUDIO ∧
      E.POWER_HINT_LAUNCH_BOOST ≠ E.POWER_HINT_LOW_POWER) ∧
    (E.POWER_HINT_CPU_BOOST ≠ E.POWER_HINT_AUDIO ∧
      E.POWER_HINT_CPU_BOOST ≠ E.POWER_HINT_LOW_POWER) ∧
    E.POWER_HINT_AUDIO ≠ E.POWER_HINT_LOW_POWER := by
  have h := E.case_labels_distinct
  simp only [List.nodup_cons, List.mem_cons, List.mem_singleton, not_or, List.not_mem_nil,
    not_false_eq_true, List.nodup_nil, and_true] at h
  obtain ⟨⟨a1, a2, a3, a4, a5⟩, ⟨b1, b2, b3, b4⟩, ⟨c1, c2, c3⟩, ⟨d1, d2⟩, e1⟩ := h
  exact ⟨⟨a1, a2, a3, a4, a5⟩, ⟨b1, b2, b3, b4⟩, ⟨c1, c2, c3⟩, ⟨d1, d2⟩, e1⟩

/-- The intervals that `common_power_open` leaves for the four throttled
hint types. -/
theorem common_power_open_intervals (E : powerhal_h) (env : Env) (s0 : powerhal_info) :
    (common_power_open E env s0).hint_interval E.POWER_HINT_INTERACTION = 90000 ∧
    (common_power_open E env s0).hint_interval E.POWER_HINT_CPU_BOOST = 1000000 ∧
    (common_power_open E env s0).hint_interval E.POWER_HINT_LAUNCH_BOOST = 1000000 ∧
    (common_power_open E env s0).hint_interval E.POWER_HINT_AUDIO = 700000 := by
  obtain ⟨_, ⟨b1, b2, b3, b4⟩, ⟨c1, c2, c3⟩, ⟨d1, d2⟩, e1⟩ := case_labels_ne E
  have hiv : ∀ k, (common_power_open E env s0).hint_interval k =
      if k = E.POWER_HINT_LOW_POWER then 0
      else if k = E.POWER_HINT_AUDIO then 700000
      else if k = E.POWER_HINT_LAUNCH_BOOST then 1000000
      else if k = E.POWER_HINT_CPU_BOOST then 1000000
      else if k = E.POWER_HINT_INTERACTION then 90000
      else (common_power_open E env s0).hint_interval k := by
    intro k
    simp only [common_power_open, set_at]
    split_ifs <;> rfl
  refine ⟨?_, ?_, ?_, ?_⟩
  · rw [hiv]; split_ifs <;> first | rfl | omega
  · rw [hiv]; split_ifs <;> first | rfl | omega
  · rw [hiv]; split_ifs <;> first | rfl | omega
  · rw [hiv]; split_ifs <;> first | rfl | omega

/-- The durations of the timed requests of the four throttled hint types. -/
theorem hint_switch_timeouts (E : powerhal_h) (p : powerhal_info) (data : Option Int)
    (fd : Int) :
    timeouts_ns (hint_switch E p E.POWER_HINT_INTERACTION data fd).2 =
      [500000000, 500000000, 500000000, 2000000000] ∧
    timeouts_ns (hint_switch E p E.POWER_HINT_CPU_BOOST data fd).2 =
      [1500000000, 1500000000, 1500000000, 1500000000] ∧
    timeouts_ns (hint_switch E p E.POWER_HINT_LAUNCH_BOOST data fd).2 = [2000000000] ∧
    timeouts_ns (hint_switch E p E.POWER_HINT_AUDIO data fd).2 = [1000000000] := by
  obtain ⟨⟨a1, a2, a3, a4, _⟩, ⟨b1, b2, b3, _⟩, ⟨c1, c2, _⟩, ⟨d1, _⟩, _⟩ := case_labels_ne E
  refine ⟨?_, ?_, ?_, ?_⟩
  · simp only [hint_switch, a1.symm, if_false, if_true]
    cases p.ftrace_enable <;> simp [timeouts_ns, Event.timeout_ns, ms2ns, s2ns]
  · simp only [hint_switch, a3.symm, b2.symm, c1.symm, if_false, if_true]
    simp [timeouts_ns, Event.timeout_ns, ms2ns]
  · simp only [hint_switch, a2.symm, b1.symm, if_false, if_true]
    simp [timeouts_ns, Event.timeout_ns, s2ns]
  · simp only [hint_switch, a4.symm, b3.symm, c2.symm, d1.symm, if_false, if_true]
    simp [timeouts_ns, Event.timeout_ns, s2ns]

/-- C12: after `common_power_open` the four hint types that are given a
non-zero interval have the intervals 90000, 1000000, 1000000 and 700000
microseconds (interaction, cpu-boost, launch-boost, audio), the timed
requests they dispatch last 500 ms and 2 s, 1.5 s, 2 s, and 1 s, and for each
of them the interval is strictly shorter than the duration of every timed
request the hint dispatches.  So a hint accepted at `t1` and accepted again as
soon as its interval has elapsed, at `t1 + interval`, comes before the expiry
`t1 + duration` of each override of the first acceptance.  Intervals and times
are in microseconds, durations in nanoseconds. -/
theorem interval_shorter_than_overrides (E : powerhal_h) (env : Env) (s0 p : powerhal_info)
    (data : Option Int) (fd : Int) :
    ((common_power_open E env s0).hint_interval E.POWER_HINT_INTERACTION = 90000 ∧
      (common_power_open E env s0).hint_interval E.POWER_HINT_CPU_BOOST = 1000000 ∧
      (common_power_open E env s0).hint_interval E.POWER_HINT_LAUNCH_BOOST = 1000000 ∧
      (common_power_open E env s0).hint_interval E.POWER_HINT_AUDIO = 700000) ∧
    (timeouts_ns (hint_switch E p E.POWER_HINT_INTERACTION data fd).2 =
        [500000000, 500000000, 500000000, 2000000000] ∧
      timeouts_ns (hint_switch E p E.POWER_HINT_CPU_BOOST data fd).2 =
        [1500000000, 1500000000, 1500000000, 1500000000] ∧
      timeouts_ns (hint_switch E p E.POWER_HINT_LAUNCH_BOOST data fd).2 = [2000000000] ∧
      timeouts_ns (hint_switch E p E.POWER_HINT_AUDIO data fd).2 = [1000000000]) ∧
    (∀ h ∈ throttled_hints E, ∀ e ∈ (hint_switch E p h data fd).2, ∀ d : Nat,
      e.timeout_ns = some d →
      (common_power_open E env s0).hint_interval h * 1000 < d ∧
      ∀ t1 : Nat,
        (t1 + (common_power_open E env s0).hint_interval h) * 1000 < t1 * 1000 + d) := by
  have hiv := common_power_open_intervals E env s0
  have hto := hint_switch_timeouts E p data fd
  refine ⟨hiv, hto, ?_⟩
  intro h hh e he d hd
  have hmem : d ∈ timeouts_ns (hint_switch E p h data fd).2 := by
    simp only [timeouts_ns, List.mem_filterMap]
    exact ⟨e, he, hd⟩
  obtain ⟨i1, i2, i3, i4⟩ := hiv
  obtain ⟨t1, t2, t3, t4⟩ := hto
  simp only [throttled_hints, List.mem_cons, List.mem_singleton, List.not_mem_nil,
    or_false] at hh
  rcases hh with rfl | rfl | rfl | rfl
  · rw [t1] at hmem
    rw [i1]
    simp only [List.mem_cons, List.mem_singleton, List.not_mem_nil, or_false] at hmem
    refine ⟨by omega, fun t => by omega⟩
  · rw [t2] at hmem
    rw [i2]
    simp only [List.mem_cons, List.mem_singleton, List.not_mem_nil, or_false] at hmem
    refine ⟨by omega, fun t => by omega⟩
  · rw [t3] at hmem
    rw [i3]
    simp only [List.mem_cons, List.mem_singleton, List.not_mem_nil, or_false] at hmem
    refine ⟨by omega, fun t => by omega⟩
  · rw [t4] at hmem
    rw [i4]
    simp only [List.mem_cons, List.mem_singleton, List.not_mem_nil, or_false] at hmem
    refine ⟨by omega, fun t => by omega⟩

/-- Witness of C12: the audio hint on the opened block; its one request lasts
1 s and its interval is 700000 microseconds. -/
theorem interval_shorter_than_overrides_witness :
    android_h.POWER_HINT_AUDIO ∈ throttled_hints android_h ∧
    Event.requestPmQosTimed .PMQOS_CONSTRAINT_CPU_FREQ 35 (-1) 564000 1000000000 ∈
      (hint_switch android_h opened_info android_h.POWER_HINT_AUDIO none 0).2 ∧
    opened_info.hint_interval android_h.POWER_HINT_AUDIO = 700000 ∧
    (opened_info.hint_interval android_h.POWER_HINT_AUDIO * 1000 < 1000000000 ∧
      ∀ t1 : Nat,
        (t1 + opened_info.hint_interval android_h.POWER_HINT_AUDIO) * 1000 <
          t1 * 1000 + 1000000000) :=
  ⟨by decide, by decide, by decide,
   (interval_shorter_than_overrides android_h
      (env_of "420000 1020000 1224000 1326000 1530000 \n" "420000\n") zero_info
      opened_info none 0).2.2 android_h.POWER_HINT_AUDIO (by decide)
      (Event.requestPmQosTimed .PMQOS_CONSTRAINT_CPU_FREQ 35 (-1) 564000 1000000000)
      (by decide) 1000000000 rfl⟩

/-! ## C13: the mode passed to `set_interactive_governor` -/

/-- C13: whatever the persisted power mode (unset, negative or however
large), the battery-saver flag, the value of `on` and the payload of a
power-mode hint are, every mode that `common_power_set_interactive` or
`set_power_mode_hint` passes to `set_interactive_governor` satisfies
`0 <= mode <= NVCPL_HINT_COUNT`.  The table has `NVCPL_HINT_COUNT + 1` rows and
every such mode has a row, so neither entry point reads outside the table
(their result is never `none`); `set_power_mode_hint` with a payload outside
`0 .. NVCPL_HINT_COUNT` makes no call at all. -/
theorem governor_mode_in_bounds (env : Env) (pInfo : Option powerhal_info) (on_ : Int)
    (mode : Int) :
    (0 ≤ interactive_power_mode env on_ ∧
      interactive_power_mode env on_ ≤ NVCPL_HINT_COUNT) ∧
    (∀ POWER_MODE_SET_INTERACTIVE : Bool,
      ∃ writes, common_power_set_interactive POWER_MODE_SET_INTERACTIVE env pInfo on_ =
        some writes) ∧
    (set_power_mode_hint env mode = some [] ∨
      (0 ≤ mode ∧ mode ≤ NVCPL_HINT_COUNT ∧
        set_power_mode_hint env mode = set_interactive_governor mode)) ∧
    (∃ writes, set_power_mode_hint env mode = some writes) ∧
    ((interactive_data_array.length : Int) = NVCPL_HINT_COUNT + 1) ∧
    (∀ m : Int, 0 ≤ m → m ≤ NVCPL_HINT_COUNT →
      ∃ row, interactive_data_array.get? m.toNat = some row ∧
        set_interactive_governor m = some (governor_writes row)) ∧
    (∀ m : Int, m < 0 ∨ NVCPL_HINT_COUNT < m → set_interactive_governor m = none) := by
  have hrow : ∀ m : Int, 0 ≤ m → m ≤ NVCPL_HINT_COUNT →
      ∃ row, interactive_data_array.get? m.toNat = some row ∧
        set_interactive_governor m = some (governor_writes row) := by
    intro m h0 h1
    obtain ⟨row, hr⟩ := profile_row_of_bounds m h0 h1
    have hnot : ¬ m < 0 := by omega
    simp only [profile_row, hnot, if_false] at hr
    refine ⟨row, hr, ?_⟩
    rw [set_interactive_governor, if_neg hnot, hr]
    rfl
  refine ⟨interactive_power_mode_bounds env on_, ?_, ?_, ?_, by decide, hrow, ?_⟩
  · intro flag
    cases flag with
    | true =>
      obtain ⟨row, _, heq⟩ := common_power_set_interactive_eq env pInfo on_
      exact ⟨_, heq⟩
    | false => exact ⟨_, rfl⟩
  · by_cases hg : mode < NVCPL_HINT_MAX_PERF ∨ mode > NVCPL_HINT_COUNT
    · left
      simp [set_power_mode_hint, hg]
    · have h0 : 0 ≤ mode := by
        simp only [NVCPL_HINT_MAX_PERF] at hg
        omega
      have h1 : mode ≤ NVCPL_HINT_COUNT := by omega
      simp only [set_power_mode_hint, hg, if_false]
      split_ifs
      · exact Or.inr ⟨h0, h1, rfl⟩
      · exact Or.inl rfl
  · by_cases hg : mode < NVCPL_HINT_MAX_PERF ∨ mode > NVCPL_HINT_COUNT
    · exact ⟨[], by simp [set_power_mode_hint, hg]⟩
    · have h0 : 0 ≤ mode := by
        simp only [NVCPL_HINT_MAX_PERF] at hg
        omega
      have h1 : mode ≤ NVCPL_HINT_COUNT := by omega
      obtain ⟨row, _, hgov⟩ := hrow mode h0 h1
      simp only [set_power_mode_hint, hg, if_false]
      split_ifs
      · exact ⟨_, hgov⟩
      · exact ⟨[], rfl⟩
  · intro m hm
    rcases hm with hneg | hbig
    · simp [set_interactive_governor, hneg]
    · have hnot : ¬ m < 0 := by
        simp only [NVCPL_HINT_COUNT] at hbig
        omega
      have hlen : interactive_data_array.length ≤ m.toNat := by
        simp only [NVCPL_HINT_COUNT] at hbig
        have : interactive_data_array.length = 5 := by decide
        omega
      rw [set_interactive_governor, if_neg hnot, List.get?_eq_none.mpr hlen]
      rfl

/-- Witness of C13: a persisted mode far above the range, a negative one and
an unset one all pass optimized performance; a power-mode hint with payload 4
while the display is on writes the terminal row, payloads 5 and -1 write
nothing. -/
theorem governor_mode_in_bounds_witness :
    interactive_power_mode (env_lit "99999999999999999999" false "120") 1 =
      NVCPL_HINT_OPT_PERF ∧
    interactive_power_mode (env_lit "-7" false "120") 1 = NVCPL_HINT_OPT_PERF ∧
    interactive_power_mode (env_lit "" false "120") 1 = NVCPL_HINT_OPT_PERF ∧
    set_power_mode_hint (env_lit "" false "120") 5 = some [] ∧
    set_power_mode_hint (env_lit "" false "120") (-1) = some [] ∧
    (∃ row, interactive_data_array.get? (4 : Int).toNat = some row ∧
      set_interactive_governor 4 = some (governor_writes row)) ∧
    (0 ≤ interactive_power_mode (env_lit "-7" false "120") 1 ∧
      interactive_power_mode (env_lit "-7" false "120") 1 ≤ NVCPL_HINT_COUNT) :=
  ⟨by decide, by decide, by decide, by decide, by decide,
   (governor_mode_in_bounds (env_lit "" false "120") none 1 4).2.2.2.2.2.1 4
     (by decide) (by decide),
   (governor_mode_in_bounds (env_lit "-7" false "120") none 1 4).1⟩

end PowerHal
